import Mathlib

/-!
Recipe builder: grid state store and label/notes synchroniser.

A shallow embedding of the state-updating callbacks of `src/App.js`
(`handleLabelChange`, `handleDeleteAction`, `handleAddMiniBox`,
`handleMiniBoxDelete`, `handleDragEnd`, `uploadPdfBlob`) together with the JavaScript string
primitives they rely on (`split`, `join`, `trim`, `startsWith`, `substring`).

JavaScript strings are modelled as lists of characters; the React state
updaters are modelled as pure functions from the previous state to the next.
A property read `grid[k]` sees the own keys of the grid and the members
inherited from `Object.prototype`; an updater that throws a `TypeError`
returns `Except.error`.
-/

namespace RecipeBuilder

/-! ## JavaScript strings -/

/-- A JavaScript string, as the list of its characters. -/
abbrev Str := List Char

/-- The line feed character, the separator used by `split("\n")` and `join("\n")`. -/
def LF : Char := Char.ofNat 10

/-- The hyphen, the separator used when parsing drag-and-drop identifiers. -/
def HYPHEN : Char := Char.ofNat 45

/-- Code points removed by `String.prototype.trim`: the ECMAScript WhiteSpace
and LineTerminator productions. -/
def isTrimChar (c : Char) : Bool :=
  let n := c.toNat
  n == 0x09 || n == 0x0A || n == 0x0B || n == 0x0C || n == 0x0D || n == 0x20 ||
  n == 0xA0 || n == 0x1680 || (0x2000 ≤ n && n ≤ 0x200A) || n == 0x2028 ||
  n == 0x2029 || n == 0x202F || n == 0x205F || n == 0x3000 || n == 0xFEFF

/-- Strip trimmable characters from the front of a string. -/
def trimStart (s : Str) : Str := s.dropWhile isTrimChar

/-- Strip trimmable characters from the back of a string. -/
def trimEnd (s : Str) : Str := (s.reverse.dropWhile isTrimChar).reverse

/-- The method `String.prototype.trim`. -/
def trim (s : Str) : Str := trimEnd (trimStart s)

/-- The method `String.prototype.split` with a one-character separator: the empty string
yields one empty segment, and `n` separators yield `n + 1` segments. -/
def split (sep : Char) : Str → List Str
  | [] => [[]]
  | c :: cs =>
    if c = sep then [] :: split sep cs
    else
      match split sep cs with
      | [] => [[c]]
      | l :: ls => (c :: l) :: ls

/-- The method `Array.prototype.join`: the empty array yields the empty string. -/
def join (sep : Str) : List Str → Str
  | [] => []
  | [l] => l
  | l :: l2 :: ls => l ++ sep ++ join sep (l2 :: ls)

/-- The method `String.prototype.startsWith`. -/
def startsWith (s p : Str) : Bool := p.isPrefixOf s

/-- The method `String.prototype.substring` with one argument. -/
def substring (s : Str) (start : Nat) : Str := s.drop start

/-- Truthiness of a string: only the empty string is falsy. -/
def truthy (s : Str) : Bool := !s.isEmpty

/-- The expression `a || b` where `a` may be `undefined` and `b` is a string. -/
def orElse (a : Option Str) (b : Str) : Str :=
  match a with
  | some s => if truthy s then s else b
  | none => b

/-- The template literal `${originalLabel} --> (${label})`. -/
def noteLine (originalLabel label : Str) : Str :=
  originalLabel ++ " --> (".toList ++ label ++ ")".toList

/-! ## Data model -/

/-- An action descriptor of the palette. Only its `name` is read by the
callbacks; `id` stands for the rest of the descriptor. -/
structure Action where
  id : Str
  name : Option Str
  deriving DecidableEq, Repr

/-- A mini-box attached to a grid square. -/
structure MiniBox where
  id : Str
  action : Option Action
  position : Str
  deriving DecidableEq, Repr

/-- The contents of one grid square. A field that is `undefined` or absent on
the JavaScript object is `none`. -/
structure Square where
  action : Option Action
  label : Option Str
  originalLabel : Option Str
  currentLabel : Option Str
  miniBoxes : List MiniBox
  deriving DecidableEq, Repr

/-- The object `gridItems`: square id to square contents, in insertion order. -/
abbrev Grid := List (Str × Square)

/-- The own property `grid[k]`: the square stored under the key `k`, if any. -/
def Grid.get : Grid → Str → Option Square
  | [], _ => none
  | (k1, v) :: rest, k => if k1 = k then some v else Grid.get rest k

/-- The names of the members every plain object inherits from
`Object.prototype`. -/
def objectPrototypeKeys : List Str :=
  [ "constructor".toList, "__defineGetter__".toList, "__defineSetter__".toList,
    "hasOwnProperty".toList, "__lookupGetter__".toList, "__lookupSetter__".toList,
    "isPrototypeOf".toList, "propertyIsEnumerable".toList, "toString".toList,
    "valueOf".toList, "__proto__".toList, "toLocaleString".toList ]

/-- What the property read `grid[k]` yields: the square stored under an own
key, a member inherited from `Object.prototype` (a truthy value that has no
`action` and no `miniBoxes` property), or `undefined`. -/
inductive Lookup where
  | square (cell : Square)
  | inherited
  | undefined
  deriving DecidableEq, Repr

/-- The property read `grid[k]`. -/
def Grid.read (g : Grid) (k : Str) : Lookup :=
  match g.get k with
  | some cell => Lookup.square cell
  | none => if k ∈ objectPrototypeKeys then Lookup.inherited else Lookup.undefined

/-- An exception thrown while an updater runs: reading `.length`, `.filter`
or `.map` of an `undefined` `miniBoxes` throws a `TypeError`. -/
inductive JsError where
  | typeError
  deriving DecidableEq, Repr

deriving instance DecidableEq for Except

/-- The object `{ ...grid, [k]: v }` (also `grid[k] = v` on a copy): an
existing key keeps its place, a new key is added last. -/
def Grid.set : Grid → Str → Square → Grid
  | [], k, v => [(k, v)]
  | (k1, v1) :: rest, k, v =>
    if k1 = k then (k, v) :: rest else (k1, v1) :: Grid.set rest k v

/-- The constant `GRID_SIZE`. -/
def GRID_SIZE : Nat := 5

/-- The helper `createEmptySquare`. -/
def createEmptySquare : Square :=
  { action := none, label := some [], originalLabel := none, currentLabel := none,
    miniBoxes := [] }

/-- The template literal `square-${r}-${c}`. -/
def squareId (r c : Nat) : Str :=
  "square-".toList ++ (Nat.repr r).toList ++ [HYPHEN] ++ (Nat.repr c).toList

/-- The object `initialGridItems` built by the two nested loops. -/
def initialGridItems : Grid :=
  (List.range GRID_SIZE).foldl
    (fun g r => (List.range GRID_SIZE).foldl (fun g c => g.set (squareId r c) createEmptySquare) g)
    []

/-- The two pieces of React state the callbacks update. -/
structure State where
  gridItems : Grid
  notes : Str
  deriving DecidableEq, Repr

/-- The state at start-up. -/
def initialState : State := { gridItems := initialGridItems, notes := [] }

/-! ## Label and notes synchroniser -/

/-- The local `originalLabel` of `handleLabelChange` and `handleDeleteAction`:
`item.originalLabel !== undefined ? item.originalLabel
  : item.action?.name || item.label || ""`. -/
def originalLabelOf (item : Square) : Str :=
  match item.originalLabel with
  | some o => o
  | none => orElse (item.action.bind (·.name)) (orElse item.label [])

/-- The local `oldLabel` / `currentLabel` of the same two callbacks:
`item.currentLabel !== undefined ? item.currentLabel
  : item.label || item.action?.name || ""`. -/
def currentLabelOf (item : Square) : Str :=
  match item.currentLabel with
  | some c => c
  | none => orElse item.label (orElse (item.action.bind (·.name)) [])

/-- The `setNotes` updater inside `handleLabelChange`. -/
def renameNotes (prevNotes originalLabel oldLabel newLabel : Str) : Str :=
  let oldPattern := noteLine originalLabel oldLabel
  let newNoteLine := noteLine originalLabel newLabel
  let lines := split LF prevNotes
  let filteredLines := lines.filter (fun line =>
    let trimmedLine := trim line
    let shouldRemove := decide (trimmedLine = oldPattern)
    !shouldRemove || decide (trimmedLine = []))
  let pushed :=
    if truthy originalLabel then
      if !(filteredLines.any (fun line => decide (trim line = newNoteLine))) then
        filteredLines ++ [newNoteLine]
      else filteredLines
    else filteredLines
  let finalLines := pushed.filter (fun line => decide (trim line ≠ []))
  join [LF] finalLines

/-- The callback `handleLabelChange(squareId, newLabel)`. The guard
`!currentItem || !currentItem.action` returns for a missing key and for an
inherited member alike (neither has an `action`), so the own property decides. -/
def handleLabelChange (s : State) (squareId newLabel : Str) : State :=
  match s.gridItems.get squareId with
  | none => s
  | some currentItem =>
    match currentItem.action with
    | none => s
    | some _ =>
      let originalLabel := originalLabelOf currentItem
      let oldLabel := currentLabelOf currentItem
      if oldLabel = newLabel then s
      else
        { gridItems := s.gridItems.set squareId
            { currentItem with
              originalLabel := some originalLabel
              currentLabel := some newLabel
              label := none }
          notes := renameNotes s.notes originalLabel oldLabel newLabel }

/-- The number of lines the filter of `handleDeleteAction` counts as removed. -/
def linesRemovedCount (lines : List Str) (pat : Str) : Nat :=
  (lines.filter (fun line =>
    let trimmedLine := trim line
    let shouldKeep := decide (trimmedLine ≠ pat)
    !shouldKeep && decide (trimmedLine ≠ []))).length

/-- The `setNotes` updater inside `handleDeleteAction`. -/
def deleteNotes (prevNotes noteToRemovePatternEnd : Str) : Str :=
  if !(truthy prevNotes) then []
  else
    let lines := split LF prevNotes
    let updatedLines := lines.filter (fun line =>
      let trimmedLine := trim line
      let shouldKeep := decide (trimmedLine ≠ noteToRemovePatternEnd)
      shouldKeep || (decide (trimmedLine = []) && decide (trim prevNotes ≠ [])))
    if linesRemovedCount lines noteToRemovePatternEnd > 0 then
      trim (join [LF] updatedLines)
    else prevNotes

/-- The callback `handleDeleteAction(squareIdToDelete)`. The guard
`!itemToDelete || !itemToDelete.action` returns for a missing key and for an
inherited member alike (neither has an `action`), so the own property decides. -/
def handleDeleteAction (s : State) (squareIdToDelete : Str) : State :=
  match s.gridItems.get squareIdToDelete with
  | none => s
  | some itemToDelete =>
    match itemToDelete.action with
    | none => s
    | some _ =>
      let originalLabel := originalLabelOf itemToDelete
      let currentLabel := currentLabelOf itemToDelete
      let noteShouldBeRemoved := truthy originalLabel && decide (originalLabel ≠ currentLabel)
      { gridItems := s.gridItems.set squareIdToDelete createEmptySquare
        notes :=
          if noteShouldBeRemoved then deleteNotes s.notes (noteLine originalLabel currentLabel)
          else s.notes }

/-! ## Mini-boxes -/

/-- The array `positions` of `handleAddMiniBox`. -/
def positions : List Str := ["right".toList, "top".toList, "bottom".toList]

/-- The callback `handleAddMiniBox(squareId)`, as the result of its updater;
`uuid` is the value `uuidv4()` returns for the new mini-box. An inherited
member passes the test `!currentSquare` and `currentSquare.miniBoxes.length`
throws. -/
def handleAddMiniBox (prev : Grid) (squareId uuid : Str) : Except JsError Grid :=
  match prev.read squareId with
  | Lookup.undefined => Except.ok prev
  | Lookup.inherited => Except.error JsError.typeError
  | Lookup.square currentSquare =>
    if currentSquare.miniBoxes.length ≥ 3 then Except.ok prev
    else
      let existingPositions := currentSquare.miniBoxes.map (·.position)
      match positions.find? (fun pos => !(existingPositions.contains pos)) with
      | none => Except.ok prev
      | some nextPosition =>
        let newMiniBox : MiniBox := { id := uuid, action := none, position := nextPosition }
        Except.ok (prev.set squareId
          { currentSquare with miniBoxes := currentSquare.miniBoxes ++ [newMiniBox] })

/-- The callback `handleMiniBoxDelete(squareId, miniBoxId)`, as the result of
its updater. An inherited member passes the test `!currentSquare` and
`currentSquare.miniBoxes.filter` throws. -/
def handleMiniBoxDelete (prev : Grid) (squareId miniBoxId : Str) : Except JsError Grid :=
  match prev.read squareId with
  | Lookup.undefined => Except.ok prev
  | Lookup.inherited => Except.error JsError.typeError
  | Lookup.square currentSquare =>
    Except.ok (prev.set squareId
      { currentSquare with
        miniBoxes := currentSquare.miniBoxes.filter (fun box => decide (box.id ≠ miniBoxId)) })

/-! ## Drag and drop -/

/-- The payload `active.data.current` of a drag: `type`, `item` and `action`
are each possibly absent. -/
structure DragData where
  type : Option Str
  item : Option Square
  action : Option Action
  deriving DecidableEq, Repr

/-- The drag-end event: `active.id`, `active.data.current` and `over?.id`. -/
structure DragEvent where
  activeId : Str
  activeData : Option DragData
  overId : Option Str
  deriving DecidableEq, Repr

/-- The mini-box target id parsing of `handleDragEnd`: the parent square id
and the mini-box uuid. -/
def parseMiniBoxTarget (targetId : Str) : Str × Str :=
  let prefixLen := "minibox-".toList.length
  let remainingId := substring targetId prefixLen
  let squareIdParts := (split HYPHEN remainingId).take 3
  let parentSquareId := join [HYPHEN] squareIdParts
  let uuidStartIndex := parentSquareId.length + 1
  let miniBoxUuid := substring remainingId uuidStartIndex
  (parentSquareId, miniBoxUuid)

/-- The `setGridItems` updater of the palette-to-square branch. -/
def assignSquare (prev : Grid) (targetId : Str) (action : Action) : Grid :=
  prev.set targetId
    { action := some action
      label := none
      originalLabel := some (orElse action.name [])
      currentLabel := some (orElse action.name [])
      miniBoxes := [] }

/-- The object `itemToMove` of the square-to-square branch. -/
def itemToMove (draggedItemData : Square) : Square :=
  let currentLabelValue : Option Str :=
    match draggedItemData.currentLabel with
    | some c => some c
    | none => draggedItemData.label
  let originalLabelValue : Str :=
    match draggedItemData.originalLabel with
    | some o => o
    | none => orElse (draggedItemData.action.bind (·.name)) (orElse currentLabelValue [])
  { draggedItemData with
    originalLabel := some originalLabelValue
    currentLabel := currentLabelValue
    label := none }

/-- The `setGridItems` updater of the square-to-square branch. -/
def moveSquare (prev : Grid) (sourceId targetId : Str) (item : Square) : Grid :=
  (prev.set targetId item).set sourceId createEmptySquare

/-- The `setGridItems` updater of the palette-to-mini-box branch. An inherited
member passes the test `!prev[parentSquareId]` and
`prev[parentSquareId].miniBoxes.map` throws. -/
def assignMiniBox (prev : Grid) (parentSquareId miniBoxUuid : Str) (droppedAction : Action) :
    Except JsError Grid :=
  match prev.read parentSquareId with
  | Lookup.undefined => Except.ok prev
  | Lookup.inherited => Except.error JsError.typeError
  | Lookup.square parent =>
    let foundMiniBox := parent.miniBoxes.any (fun mb => decide (mb.id = miniBoxUuid))
    let updatedMiniBoxes := parent.miniBoxes.map (fun mb =>
      if mb.id = miniBoxUuid then { mb with action := some droppedAction } else mb)
    if !foundMiniBox then Except.ok prev
    else Except.ok (prev.set parentSquareId { parent with miniBoxes := updatedMiniBoxes })

/-- The callback `handleDragEnd(event)`, as the result of the `setGridItems`
updater it runs (the grid itself when it runs none). -/
def handleDragEnd (prev : Grid) (event : DragEvent) : Except JsError Grid :=
  match event.overId with
  | none => Except.ok prev
  | some targetId =>
    let sourceId := event.activeId
    if sourceId = targetId then Except.ok prev
    else
      let dataAction := event.activeData.bind (·.action)
      let dataType := event.activeData.bind (·.type)
      let dataItem := event.activeData.bind (·.item)
      match startsWith targetId "square-".toList && startsWith sourceId "action-".toList,
          dataAction with
      | true, some action => Except.ok (assignSquare prev targetId action)
      | _, _ =>
        match startsWith targetId "square-".toList && startsWith sourceId "square-".toList
            && decide (dataType = some "grid-item".toList), dataItem with
        | true, some draggedItemData =>
          Except.ok (moveSquare prev sourceId targetId (itemToMove draggedItemData))
        | _, _ =>
          match startsWith targetId "minibox-".toList && startsWith sourceId "action-".toList,
              dataAction with
          | true, some droppedAction =>
            let parsed := parseMiniBoxTarget targetId
            assignMiniBox prev parsed.1 parsed.2 droppedAction
          | _, _ => Except.ok prev

/-! ## Predicates used to state the properties -/

/-- A trimmed line has the generated form `<o> --> (<label>)` for some label. -/
def isGeneratedLine (o t : Str) : Bool :=
  startsWith t (o ++ " --> (".toList) && (")".toList).isSuffixOf (t.drop (o.length + 6))

/-- The lines of a notes blob whose trimmed content is a generated line for
the original label `o`. -/
def generatedLines (o notes : Str) : List Str :=
  (split LF notes).filter (fun line => isGeneratedLine o (trim line))

/-- A sequence of renames of one square. -/
def renameSeq (s : State) (squareId : Str) (labels : List Str) : State :=
  labels.foldl (fun st newLabel => handleLabelChange st squareId newLabel) s

/-- The rename rewrite as the specification words it: split on newline, remove
every line whose trimmed content equals the old pattern, append the new
pattern unless a remaining line already has it as trimmed content, drop the
blank lines, join with a newline. -/
def renameNotesSpec (notes o l n : Str) : Str :=
  let remaining := (split LF notes).filter (fun line => decide (trim line ≠ noteLine o l))
  let appended :=
    if remaining.any (fun line => decide (trim line = noteLine o n)) then remaining
    else remaining ++ [noteLine o n]
  join [LF] (appended.filter (fun line => decide (trim line ≠ [])))

/-- The clear rewrite as the specification words it: the trimmed newline-join
of the lines whose trimmed content differs from the pattern. -/
def clearNotesSpec (notes o c : Str) : Str :=
  trim (join [LF] ((split LF notes).filter (fun line => decide (trim line ≠ noteLine o c))))

/-! ## Reachable states -/

/-- Modelled from the spec: the component that builds the drag payload is not
part of `src/App.js`; the specification's `move` copies the source cell's full
state, so a payload `item`, when present, is the state the grid holds for the
dragged id. -/
def payloadOk (g : Grid) (event : DragEvent) : Bool :=
  match event.activeData.bind (·.item) with
  | none => true
  | some item => decide (g.get event.activeId = some item)

/-- The square at `squareId` exists and holds an action. -/
def hasAction (g : Grid) (squareId : Str) : Bool :=
  match g.get squareId with
  | none => false
  | some cell => cell.action.isSome

/-- One user operation on the state: rename, clear, addMiniBox, removeMiniBox,
and a completed drag (assign, move or assignMiniBox, by the branch of
`handleDragEnd` the event selects). An updater that throws leaves no next
state. `addOk` restricts the squares on which addMiniBox is invoked. -/
inductive StepWith (addOk : Grid → Str → Bool) : State → State → Prop
  | rename (s : State) (squareId newLabel : Str) :
      StepWith addOk s (handleLabelChange s squareId newLabel)
  | clear (s : State) (squareId : Str) :
      StepWith addOk s (handleDeleteAction s squareId)
  | addMiniBox (s : State) (squareId uuid : Str) (next : Grid)
      (h : addOk s.gridItems squareId = true)
      (hnext : handleAddMiniBox s.gridItems squareId uuid = Except.ok next) :
      StepWith addOk s { s with gridItems := next }
  | removeMiniBox (s : State) (squareId miniBoxId : Str) (next : Grid)
      (hnext : handleMiniBoxDelete s.gridItems squareId miniBoxId = Except.ok next) :
      StepWith addOk s { s with gridItems := next }
  | drag (s : State) (event : DragEvent) (next : Grid)
      (h : payloadOk s.gridItems event = true)
      (hnext : handleDragEnd s.gridItems event = Except.ok next) :
      StepWith addOk s { s with gridItems := next }

/-- States reachable from the initial 5x5 empty grid. -/
inductive ReachableWith (addOk : Grid → Str → Bool) : State → Prop
  | init : ReachableWith addOk initialState
  | step {s t : State} : ReachableWith addOk s → StepWith addOk s t → ReachableWith addOk t

/-- Reachability when addMiniBox may be invoked on any square id. -/
abbrev Reachable : State → Prop := ReachableWith (fun _ _ => true)

/-- Reachability when addMiniBox is only invoked on squares that hold an action. -/
abbrev ReachableGuarded : State → Prop := ReachableWith hasAction

/-- The mini-box capacity condition on one square. -/
def miniBoxesOk (cell : Square) : Prop :=
  cell.miniBoxes.length ≤ 3 ∧ (cell.miniBoxes.map (·.position)).Nodup

/-- The empty-cell condition on one square. -/
def emptyOk (cell : Square) : Prop :=
  cell.action = none → cell.miniBoxes = []

/-- Every square the grid holds satisfies `P`. -/
def GridAll (P : Square → Prop) (g : Grid) : Prop :=
  ∀ squareId cell, g.get squareId = some cell → P cell

/-- The closure conditions under which a per-square condition `P` is kept by
every operation of the grid state store. -/
structure KeptBySteps (addOk : Grid → Str → Bool) (P : Square → Prop) : Prop where
  empty : P createEmptySquare
  relabel : ∀ (cell : Square) (a : Action) (o n : Str), cell.action = some a → P cell →
    P { cell with originalLabel := some o, currentLabel := some n, label := none }
  add : ∀ (g : Grid) (squareId : Str) (cell : Square) (uuid pos : Str),
    addOk g squareId = true → g.get squareId = some cell → cell.miniBoxes.length < 3 →
    pos ∉ cell.miniBoxes.map (·.position) → P cell →
    P { cell with miniBoxes := cell.miniBoxes ++ [{ id := uuid, action := none, position := pos }] }
  remove : ∀ (cell : Square) (miniBoxId : Str), P cell →
    P { cell with miniBoxes := cell.miniBoxes.filter (fun box => decide (box.id ≠ miniBoxId)) }
  assign : ∀ (a : Action),
    P ⟨some a, none, some (orElse a.name []), some (orElse a.name []), []⟩
  move : ∀ (cell : Square), P cell → P (itemToMove cell)
  assignMini : ∀ (cell : Square) (uuid : Str) (a : Action), P cell →
    P { cell with miniBoxes := cell.miniBoxes.map (fun mb =>
      if mb.id = uuid then { mb with action := some a } else mb) }

/-- The invariant kept by renames of the square `squareId` with original label
`o`: every generated line for `o` in the blob carries the square's current
label, and there is at most one such line. -/
def RenameInv (o squareId : Str) (s : State) : Prop :=
  ∃ cell, s.gridItems.get squareId = some cell ∧ originalLabelOf cell = o ∧
    (∀ line ∈ split LF s.notes, isGeneratedLine o (trim line) = true →
      trim line = noteLine o (currentLabelOf cell)) ∧
    (generatedLines o s.notes).length ≤ 1

/-! ## Sample data -/

/-- A palette action named "Boil Water". -/
def boilWater : Action := { id := "action-boil".toList, name := some "Boil Water".toList }

/-- The id of the top-left square. -/
def sq00 : Str := "square-0-0".toList

/-- The id of its right-hand neighbour. -/
def sq01 : Str := "square-0-1".toList

/-- The drag-end event of dropping the palette action `boilWater` on `sq00`. -/
def dropBoilWater : DragEvent :=
  { activeId := "action-boil".toList
    activeData := some { type := none, item := none, action := some boilWater }
    overId := some sq00 }

/-- The state after `dropBoilWater` at start-up. -/
def assignedState : State :=
  { gridItems := assignSquare initialGridItems sq00 boilWater, notes := [] }

/-- The square `sq00` of `assignedState`. -/
def assignedCell : Square :=
  { action := some boilWater
    label := none
    originalLabel := some "Boil Water".toList
    currentLabel := some "Boil Water".toList
    miniBoxes := [] }

/-- The state after renaming `sq00` of `assignedState` to "Simmer". -/
def renamedState : State := handleLabelChange assignedState sq00 "Simmer".toList

/-- The square `sq00` of `renamedState`. -/
def renamedCell : Square :=
  { action := some boilWater
    label := none
    originalLabel := some "Boil Water".toList
    currentLabel := some "Simmer".toList
    miniBoxes := [] }

/-- The state `renamedState` once the user has replaced the notes by `text`. -/
def withNotes (s : State) (text : Str) : State := { s with notes := text }

/-- A mini-box without action. -/
def emptyBox (uuid position : Str) : MiniBox :=
  { id := uuid, action := none, position := position }

/-- The square `sq00` of `assignedState` with the given mini-boxes. -/
def assignedWithBoxes (boxes : List MiniBox) : Square :=
  { assignedCell with miniBoxes := boxes }

/-- The grid after one mini-box was added to `sq00` of `assignedState`. -/
def oneBoxGrid : Grid :=
  assignedState.gridItems.set sq00
    (assignedWithBoxes [emptyBox "u1".toList "right".toList])

/-- The grid after a second mini-box was added. -/
def twoBoxesGrid : Grid :=
  assignedState.gridItems.set sq00
    (assignedWithBoxes [emptyBox "u1".toList "right".toList, emptyBox "u2".toList "top".toList])

/-- The grid after three mini-boxes were added to `sq00` of `assignedState`. -/
def threeBoxesGrid : Grid :=
  assignedState.gridItems.set sq00
    (assignedWithBoxes
      [emptyBox "u1".toList "right".toList, emptyBox "u2".toList "top".toList,
       emptyBox "u3".toList "bottom".toList])

/-- The initial grid after one mini-box was added to the empty square `sq00`. -/
def boxOnEmptyGrid : Grid :=
  initialGridItems.set sq00
    { createEmptySquare with miniBoxes := [emptyBox "u1".toList "right".toList] }

/-- The drag-end event of dropping `boilWater` on the mini-box `u2` of `sq00`. -/
def dropOnSecondBox : DragEvent :=
  { activeId := "action-boil".toList
    activeData := some { type := none, item := none, action := some boilWater }
    overId := some "minibox-square-0-0-u2".toList }

/-- The drag-end event of dropping `boilWater` on a mini-box target whose
parent id is `constructor`. -/
def dropOnConstructor : DragEvent :=
  { activeId := "action-boil".toList
    activeData := some { type := none, item := none, action := some boilWater }
    overId := some "minibox-constructor".toList }

/-- The square `sq00` of `threeBoxesGrid`. -/
def threeBoxesCell : Square :=
  { action := some boilWater
    label := none
    originalLabel := some "Boil Water".toList
    currentLabel := some "Boil Water".toList
    miniBoxes :=
      [ { id := "u1".toList, action := none, position := "right".toList },
        { id := "u2".toList, action := none, position := "top".toList },
        { id := "u3".toList, action := none, position := "bottom".toList } ] }

/-- The drag-end event of dragging the item of `sq00` in `renamedState` onto `sq01`. -/
def dragToNeighbour : DragEvent :=
  { activeId := sq00
    activeData := some { type := some "grid-item".toList, item := some renamedCell, action := none }
    overId := some sq01 }

/-! ## Export pipeline -/

/-- The generated PDF artifact held in `pdfBlob`, as its bytes. -/
abbrev Blob := List Nat

/-- The export-related React state: `qrData`, `isLoadingPdf`, `pdfError`,
`pdfBlob`, `pdfGenerated`, `triggerPdfGeneration` and `isSummaryModalOpen`. -/
structure ExportState where
  qrData : Str
  isLoadingPdf : Bool
  pdfError : Option Str
  pdfBlob : Option Blob
  pdfGenerated : Bool
  triggerPdfGeneration : Bool
  isSummaryModalOpen : Bool
  deriving DecidableEq, Repr

/-- The value bound by `catch (error)`: its `message` property (possibly
undefined) and the string the template literal makes of the value itself. -/
structure UploadError where
  message : Option Str
  text : Str
  deriving DecidableEq, Repr

/-- The outcome of the awaited calls `uploadBytes` and `getDownloadURL`: both
resolve, giving the download URL, or one of them throws. -/
inductive UploadOutcome where
  | success (downloadURL : Str)
  | failure (error : UploadError)
  deriving DecidableEq, Repr

/-- The function `uploadPdfBlob(blobToUpload)`, as the export state it leaves
once the awaited calls have settled with `outcome`. -/
def uploadPdfBlob (st : ExportState) (blobToUpload : Option Blob) (outcome : UploadOutcome) :
    ExportState :=
  match blobToUpload with
  | none =>
    { st with
      pdfError := some "PDF Blob was not generated correctly.".toList
      isLoadingPdf := false }
  | some _ =>
    let settled : ExportState :=
      match outcome with
      | UploadOutcome.success downloadURL =>
        { st with qrData := downloadURL, pdfError := none }
      | UploadOutcome.failure error =>
        { st with
          pdfError := some ("Failed to upload PDF: ".toList ++ orElse error.message error.text)
          qrData := [] }
    { settled with
      isLoadingPdf := false
      triggerPdfGeneration := false
      pdfBlob := none
      pdfGenerated := false }

/-- The lines of a blob that a rename from `l` must leave alone: non-blank
after trimming, and with trimmed content other than `o --> (l)`. -/
def unrelatedLines (notes o l : Str) : List Str :=
  (split LF notes).filter
    (fun line => decide (trim line ≠ []) && decide (trim line ≠ noteLine o l))

/-- A two-byte artifact. -/
def sampleBlob : Blob := [37, 80]

/-- The export state while the artifact `sampleBlob` is being uploaded. -/
def uploadingState : ExportState :=
  { qrData := []
    isLoadingPdf := true
    pdfError := none
    pdfBlob := some sampleBlob
    pdfGenerated := true
    triggerPdfGeneration := true
    isSummaryModalOpen := true }

/-- A storage error whose `message` is "quota exceeded". -/
def quotaError : UploadError :=
  { message := some "quota exceeded".toList, text := "Error: quota exceeded".toList }

/-- The second mini-box of `threeBoxesCell`. -/
def secondBox : MiniBox := { id := "u2".toList, action := none, position := "top".toList }

/-! ## Lemmas on strings -/

theorem split_ne_nil (sep : Char) (s : Str) : split sep s ≠ [] := by
  induction s with
  | nil => simp [split]
  | cons c cs ih =>
    simp only [split]
    split_ifs
    · simp
    · cases h : split sep cs <;> simp

theorem sep_not_mem_of_mem_split (sep : Char) (s : Str) :
    ∀ l, l ∈ split sep s → sep ∉ l := by
  induction s with
  | nil => intro l hl; simp [split] at hl; simp [hl]
  | cons c cs ih =>
    intro l hl
    simp only [split] at hl
    split_ifs at hl with hc
    · rcases List.mem_cons.1 hl with h | h
      · simp [h]
      · exact ih l h
    · cases hs : split sep cs with
      | nil => exact absurd hs (split_ne_nil sep cs)
      | cons l1 ls =>
        rw [hs] at hl ih
        rcases List.mem_cons.1 hl with h | h
        · subst h
          have h1 := ih l1 (List.mem_cons_self _ _)
          intro hm
          rcases List.mem_cons.1 hm with h2 | h2
          · exact hc h2.symm
          · exact h1 h2
        · exact ih l (List.mem_cons_of_mem _ h)

theorem split_of_not_mem (sep : Char) (l : Str) (h : sep ∉ l) : split sep l = [l] := by
  induction l with
  | nil => rfl
  | cons c cs ih =>
    have hc : c ≠ sep := fun e => h (by simp [e])
    have hcs : sep ∉ cs := fun e => h (List.mem_cons_of_mem _ e)
    simp [split, hc, ih hcs]

theorem split_append_sep (sep : Char) (l t : Str) (h : sep ∉ l) :
    split sep (l ++ sep :: t) = l :: split sep t := by
  induction l with
  | nil => simp [split]
  | cons c cs ih =>
    have hc : c ≠ sep := fun e => h (by simp [e])
    have hcs : sep ∉ cs := fun e => h (List.mem_cons_of_mem _ e)
    simp [split, hc, ih hcs]

theorem split_join (sep : Char) (ls : List Str) (hne : ls ≠ [])
    (h : ∀ l ∈ ls, sep ∉ l) : split sep (join [sep] ls) = ls := by
  induction ls with
  | nil => exact absurd rfl hne
  | cons l rest ih =>
    cases rest with
    | nil => simpa [join] using split_of_not_mem sep l (h l (List.mem_cons_self _ _))
    | cons l2 rest2 =>
      have h1 : sep ∉ l := h l (List.mem_cons_self _ _)
      have h2 : ∀ x ∈ l2 :: rest2, sep ∉ x := fun x hx => h x (List.mem_cons_of_mem _ hx)
      have := ih (by simp) h2
      simp only [join, List.append_assoc, List.singleton_append]
      rw [split_append_sep sep l _ h1, this]

theorem join_split (sep : Char) (s : Str) : join [sep] (split sep s) = s := by
  induction s with
  | nil => rfl
  | cons c cs ih =>
    simp only [split]
    split_ifs with hc
    · cases hs : split sep cs with
      | nil => exact absurd hs (split_ne_nil sep cs)
      | cons l1 ls =>
        rw [hs] at ih
        simp [join, ih, hc]
    · cases hs : split sep cs with
      | nil => exact absurd hs (split_ne_nil sep cs)
      | cons l1 ls =>
        rw [hs] at ih
        cases ls with
        | nil => simpa [join] using ih
        | cons l2 ls2 =>
          simp only [join, List.append_assoc, List.singleton_append] at ih ⊢
          simp [ih]

theorem trimEnd_eq_rdropWhile (s : Str) : trimEnd s = s.rdropWhile isTrimChar := rfl

theorem trim_sublist (s : Str) : (trim s).Sublist s := by
  unfold trim
  rw [trimEnd_eq_rdropWhile]
  exact ((List.rdropWhile_prefix isTrimChar (trimStart s)).sublist).trans (List.dropWhile_sublist _)

theorem not_mem_trim (c : Char) (s : Str) (h : c ∉ s) : c ∉ trim s :=
  fun hm => h ((trim_sublist s).subset hm)

theorem trim_head_not_trimChar (s : Str) (c : Char) (rest : Str)
    (h : trim s = c :: rest) : isTrimChar c = false := by
  unfold trim at h
  rw [trimEnd_eq_rdropWhile] at h
  obtain ⟨t, ht⟩ := List.rdropWhile_prefix isTrimChar (trimStart s)
  rw [h] at ht
  have hne : trimStart s ≠ [] := by rw [← ht]; simp
  have := List.head_dropWhile_not isTrimChar s hne
  have hh : (trimStart s).head hne = c := by
    simp only [← ht]; rfl
  unfold trimStart at hh
  rw [hh] at this
  exact this

theorem trim_eq_self (s : Str) (c : Char) (rest : Str) (d : Char) (front : Str)
    (h1 : s = c :: rest) (h2 : s = front ++ [d])
    (hc : isTrimChar c = false) (hd : isTrimChar d = false) : trim s = s := by
  have hs : trimStart s = s := by
    unfold trimStart; rw [h1]; simp [List.dropWhile, hc]
  unfold trim
  rw [hs, trimEnd_eq_rdropWhile, h2]
  exact List.rdropWhile_concat_neg _ _ _ (by simp [hd])

/-! ## Lemmas on the grid object -/

theorem Grid.get_set_same (g : Grid) (k : Str) (v : Square) : (g.set k v).get k = some v := by
  induction g with
  | nil => simp [Grid.set, Grid.get]
  | cons p rest ih =>
    obtain ⟨k1, v1⟩ := p
    by_cases h : k1 = k
    · simp [Grid.set, Grid.get, h]
    · simp [Grid.set, Grid.get, h, ih]

theorem Grid.get_set_other (g : Grid) (k k2 : Str) (v : Square) (hne : k2 ≠ k) :
    (g.set k v).get k2 = g.get k2 := by
  induction g with
  | nil => simp [Grid.set, Grid.get, Ne.symm hne]
  | cons p rest ih =>
    obtain ⟨k1, v1⟩ := p
    by_cases h : k1 = k
    · subst h
      simp [Grid.set, Grid.get, Ne.symm hne]
    · by_cases h2 : k1 = k2
      · subst h2
        simp [Grid.set, Grid.get, h]
      · simp [Grid.set, Grid.get, h, h2, ih]

theorem Grid.get_set (g : Grid) (k k2 : Str) (v : Square) :
    (g.set k v).get k2 = if k2 = k then some v else g.get k2 := by
  by_cases h : k2 = k
  · subst h; simp [Grid.get_set_same]
  · simp [h, Grid.get_set_other g k k2 v h]

theorem Grid.read_of_get (g : Grid) (k : Str) (cell : Square) (h : g.get k = some cell) :
    g.read k = Lookup.square cell := by
  simp [Grid.read, h]

theorem Grid.get_of_read (g : Grid) (k : Str) (cell : Square)
    (h : g.read k = Lookup.square cell) : g.get k = some cell := by
  unfold Grid.read at h
  cases hget : g.get k with
  | none =>
    rw [hget] at h
    dsimp only at h
    split_ifs at h
  | some c =>
    rw [hget] at h
    cases h
    rfl

theorem Grid.read_undefined (g : Grid) (k : Str) (h : g.get k = none)
    (hk : k ∉ objectPrototypeKeys) : g.read k = Lookup.undefined := by
  unfold Grid.read
  rw [h]
  exact if_neg hk

theorem Grid.read_inherited (g : Grid) (k : Str) (h : g.get k = none)
    (hk : k ∈ objectPrototypeKeys) : g.read k = Lookup.inherited := by
  unfold Grid.read
  rw [h]
  exact if_pos hk

theorem noteLine_ne_nil (o l : Str) : noteLine o l ≠ [] := by
  simp [noteLine]

theorem isGeneratedLine_iff (o t : Str) :
    isGeneratedLine o t = true ↔ ∃ label, t = noteLine o label := by
  constructor
  · intro h
    simp only [isGeneratedLine, startsWith, Bool.and_eq_true, List.isPrefixOf_iff_prefix,
      List.isSuffixOf_iff_suffix] at h
    obtain ⟨⟨r, hr⟩, ⟨x, hx⟩⟩ := h
    refine ⟨x, ?_⟩
    subst hr
    have : List.drop (o.length + 6) (o ++ " --> (".toList ++ r) = r := by
      have hl : (o ++ " --> (".toList).length = o.length + 6 := by simp
      rw [← hl, List.drop_left]
    rw [this] at hx
    simp [noteLine, ← hx]
  · rintro ⟨x, rfl⟩
    simp only [isGeneratedLine, startsWith, Bool.and_eq_true, List.isPrefixOf_iff_prefix,
      List.isSuffixOf_iff_suffix, noteLine]
    refine ⟨⟨x ++ ")".toList, by simp⟩, ⟨x, ?_⟩⟩
    have hl : (o ++ " --> (".toList).length = o.length + 6 := by simp
    rw [List.append_assoc (o ++ " --> (".toList), ← hl, List.drop_left]

theorem rename_filter_eq (lines : List Str) (pat : Str) (hp : pat ≠ []) :
    lines.filter (fun line => !(decide (trim line = pat)) || decide (trim line = []))
      = lines.filter (fun line => decide (trim line ≠ pat)) := by
  apply List.filter_congr
  intro x _
  by_cases h : trim x = pat
  · simp [h, hp]
  · simp [h]

theorem renameNotes_eq_spec (notes o l n : Str) (ho : o ≠ []) :
    renameNotes notes o l n = renameNotesSpec notes o l n := by
  have ht : truthy o = true := by
    cases o with
    | nil => exact absurd rfl ho
    | cons c cs => rfl
  simp only [renameNotes, renameNotesSpec, ht, if_true]
  rw [rename_filter_eq _ _ (noteLine_ne_nil o l)]
  generalize (split LF notes).filter (fun line => decide (trim line ≠ noteLine o l)) = kept
  cases h : kept.any (fun line => decide (trim line = noteLine o n)) <;> simp

/-- C3: for a square with an action, non-empty original label O and current
label L, and a new label N different from L, the notes produced by
`handleLabelChange` equal the specified algorithm: split on newline, remove every
line whose trimmed content is `O --> (L)`, append `O --> (N)` unless a remaining
line already has that trimmed content, drop blank lines, join with newline. -/
theorem handleLabelChange_notes_eq_spec (s : State) (squareId : Str) (cell : Square)
    (a : Action) (o l n : Str)
    (hget : s.gridItems.get squareId = some cell) (hact : cell.action = some a)
    (ho : originalLabelOf cell = o) (hne : o ≠ []) (hl : currentLabelOf cell = l)
    (hn : n ≠ l) :
    (handleLabelChange s squareId n).notes = renameNotesSpec s.notes o l n := by
  simp only [handleLabelChange, hget, hact, ho, hl]
  rw [if_neg (Ne.symm hn)]
  exact renameNotes_eq_spec _ _ _ _ hne

theorem delete_filter_eq (lines : List Str) (prev pat : Str) (hp : pat ≠ []) :
    lines.filter (fun line =>
        decide (trim line ≠ pat) || (decide (trim line = []) && decide (trim prev ≠ [])))
      = lines.filter (fun line => decide (trim line ≠ pat)) := by
  apply List.filter_congr
  intro x _
  by_cases h : trim x = []
  · have : trim x ≠ pat := by rw [h]; exact Ne.symm hp
    simp [h, this, hp]
  · simp [h]

theorem linesRemovedCount_pos_iff (lines : List Str) (pat : Str) (hp : pat ≠ []) :
    linesRemovedCount lines pat > 0 ↔
      lines.any (fun line => decide (trim line = pat)) = true := by
  unfold linesRemovedCount
  rw [gt_iff_lt, List.length_pos, Ne, List.filter_eq_nil_iff, List.any_eq_true]
  push_neg
  constructor
  · rintro ⟨x, hx, h⟩
    refine ⟨x, hx, ?_⟩
    simp only [Bool.and_eq_true, Bool.not_eq_true', decide_eq_false_iff_not, decide_eq_true_eq] at h
    simpa using h.1
  · rintro ⟨x, hx, h⟩
    refine ⟨x, hx, ?_⟩
    have hx2 : trim x = pat := by simpa using h
    simp [hx2, hp]

theorem deleteNotes_eq (notes pat : Str) (hp : pat ≠ []) :
    deleteNotes notes pat =
      if (split LF notes).any (fun line => decide (trim line = pat)) then
        trim (join [LF] ((split LF notes).filter (fun line => decide (trim line ≠ pat))))
      else notes := by
  unfold deleteNotes
  cases notes with
  | nil =>
    have : trim ([] : Str) = [] := rfl
    simp [truthy, split, this, Ne.symm hp]
  | cons c cs =>
    simp only [truthy, List.isEmpty_cons, Bool.not_false, Bool.not_true, Bool.false_eq_true,
      if_false]
    rw [delete_filter_eq _ _ _ hp]
    by_cases h : (split LF (c :: cs)).any (fun line => decide (trim line = pat)) = true
    · rw [if_pos ((linesRemovedCount_pos_iff _ _ hp).2 h), if_pos h]
    · rw [if_neg (fun h2 => h ((linesRemovedCount_pos_iff _ _ hp).1 h2)), if_neg h]

/-- C4, as amended: for a square with an action whose original label O is
non-empty and differs from its current label C, `handleDeleteAction` leaves
the trimmed newline-join of the lines whose trimmed content differs from
`O --> (C)` when some line matches that pattern, and leaves the notes blob
unchanged (not trimmed) when no line matches. -/
theorem handleDeleteAction_notes_rewrite (s : State) (squareId : Str) (cell : Square)
    (a : Action) (o c : Str)
    (hget : s.gridItems.get squareId = some cell) (hact : cell.action = some a)
    (ho : originalLabelOf cell = o) (hne : o ≠ []) (hc : currentLabelOf cell = c)
    (hoc : o ≠ c) :
    (handleDeleteAction s squareId).notes =
      if (split LF s.notes).any (fun line => decide (trim line = noteLine o c)) then
        clearNotesSpec s.notes o c
      else s.notes := by
  have ht : truthy o = true := by
    cases o with
    | nil => exact absurd rfl hne
    | cons c cs => rfl
  simp only [handleDeleteAction, hget, hact, ho, hc, ht, Bool.true_and, decide_eq_true_eq]
  rw [if_pos hoc, deleteNotes_eq _ _ (noteLine_ne_nil o c)]
  rfl

/-- C5, as amended: for every square whose original label equals its current
label, `handleDeleteAction` returns the notes blob unchanged, character for
character; when the square holds an action it is reset to the empty square
(and no other entry changes), and when it holds no action the grid is returned
unchanged. -/
theorem handleDeleteAction_never_renamed (s : State) (squareId : Str) (cell : Square)
    (hget : s.gridItems.get squareId = some cell)
    (heq : originalLabelOf cell = currentLabelOf cell) :
    (handleDeleteAction s squareId).notes = s.notes ∧
      (cell.action ≠ none →
        (handleDeleteAction s squareId).gridItems = s.gridItems.set squareId createEmptySquare ∧
        (handleDeleteAction s squareId).gridItems.get squareId = some createEmptySquare) ∧
      (cell.action = none → (handleDeleteAction s squareId).gridItems = s.gridItems) := by
  cases hact : cell.action with
  | none => simp [handleDeleteAction, hget, hact]
  | some a => simp [handleDeleteAction, hget, hact, heq, Grid.get_set_same]

/-- The updater of `handleAddMiniBox` throws for an id that is not a key of the
grid but names a member inherited from `Object.prototype`. -/
theorem handleAddMiniBox_inherited (g : Grid) (squareId uuid : Str)
    (h : g.get squareId = none) (hk : squareId ∈ objectPrototypeKeys) :
    handleAddMiniBox g squareId uuid = Except.error JsError.typeError := by
  simp [handleAddMiniBox, Grid.read_inherited g squareId h hk]

/-- C7, as amended: if the id is neither a key of the grid nor the name of a
member inherited from `Object.prototype`, or the square already has 3 (or
more) mini-boxes, `handleAddMiniBox` returns the grid unchanged. -/
theorem handleAddMiniBox_at_capacity (g : Grid) (squareId uuid : Str)
    (h : (g.get squareId = none ∧ squareId ∉ objectPrototypeKeys) ∨
      ∃ cell, g.get squareId = some cell ∧ 3 ≤ cell.miniBoxes.length) :
    handleAddMiniBox g squareId uuid = Except.ok g := by
  rcases h with ⟨h, hk⟩ | ⟨cell, hget, hlen⟩
  · simp [handleAddMiniBox, Grid.read_undefined g squareId h hk]
  · simp [handleAddMiniBox, Grid.read_of_get g squareId cell hget, hlen]

theorem positions_nodup : positions.Nodup := by decide

theorem exists_unused_position (existing : List Str) (h : existing.length < 3) :
    ∃ pos, positions.find? (fun pos => !(existing.contains pos)) = some pos := by
  cases hf : positions.find? (fun pos => !(existing.contains pos)) with
  | some pos => exact ⟨pos, rfl⟩
  | none =>
    exfalso
    rw [List.find?_eq_none] at hf
    have hsub : positions ⊆ existing := by
      intro p hp
      have := hf p hp
      simpa using this
    have := (List.subperm_of_subset positions_nodup hsub).length_le
    have h3 : positions.length = 3 := rfl
    omega

theorem find_first_unused (existing : List Str) (r t b pos : Str)
    (h : [r, t, b].find? (fun p => !(existing.contains p)) = some pos) :
    (pos = r ∧ r ∉ existing) ∨ (pos = t ∧ r ∈ existing ∧ t ∉ existing) ∨
      (pos = b ∧ r ∈ existing ∧ t ∈ existing ∧ b ∉ existing) := by
  by_cases h1 : r ∈ existing
  · by_cases h2 : t ∈ existing
    · by_cases h3 : b ∈ existing
      · simp [List.find?, h1, h2, h3] at h
      · simp [List.find?, h1, h2, h3] at h
        exact Or.inr (Or.inr ⟨h.symm, h1, h2, h3⟩)
    · simp [List.find?, h1, h2] at h
      exact Or.inr (Or.inl ⟨h.symm, h1, h2⟩)
  · simp [List.find?, h1] at h
    exact Or.inl ⟨h.symm, h1⟩

/-- C8: for an existing square with fewer than 3 mini-boxes, `handleAddMiniBox`
returns a grid in which exactly one mini-box is appended at the end of the
square's list, with the given fresh id, no action, and the first position of
the order right, top, bottom that no existing mini-box of the square uses; the
existing mini-boxes, the square's action and labels, and all other squares are
unchanged. -/
theorem handleAddMiniBox_position (g : Grid) (squareId uuid : Str) (cell : Square)
    (hget : g.get squareId = some cell) (hlen : cell.miniBoxes.length < 3) :
    ∃ pos : Str,
      ((pos = "right".toList ∧ "right".toList ∉ cell.miniBoxes.map (·.position)) ∨
       (pos = "top".toList ∧ "right".toList ∈ cell.miniBoxes.map (·.position) ∧
          "top".toList ∉ cell.miniBoxes.map (·.position)) ∨
       (pos = "bottom".toList ∧ "right".toList ∈ cell.miniBoxes.map (·.position) ∧
          "top".toList ∈ cell.miniBoxes.map (·.position) ∧
          "bottom".toList ∉ cell.miniBoxes.map (·.position))) ∧
      ∃ next : Grid,
        handleAddMiniBox g squareId uuid = Except.ok next ∧
        next.get squareId =
          some { action := cell.action, label := cell.label,
                 originalLabel := cell.originalLabel, currentLabel := cell.currentLabel,
                 miniBoxes := cell.miniBoxes ++ [{ id := uuid, action := none, position := pos }] } ∧
        ∀ other, other ≠ squareId → next.get other = g.get other := by
  obtain ⟨pos, hpos⟩ := exists_unused_position (cell.miniBoxes.map (·.position))
    (by simpa using hlen)
  have hnot : ¬ (3 ≤ cell.miniBoxes.length) := by omega
  refine ⟨pos, find_first_unused _ _ _ _ _ hpos,
    g.set squareId ⟨cell.action, cell.label, cell.originalLabel, cell.currentLabel,
      cell.miniBoxes ++ [⟨uuid, none, pos⟩]⟩, ?_, ?_, ?_⟩
  · simp only [handleAddMiniBox, Grid.read_of_get g squareId cell hget, ge_iff_le, hnot,
      if_false, hpos]
  · rw [Grid.get_set_same]
  · intro other hne
    rw [Grid.get_set_other _ _ _ _ hne]

theorem not_startsWith_action_of_square (s : Str)
    (h : startsWith s "square-".toList = true) : startsWith s "action-".toList = false := by
  cases s with
  | nil => simp [startsWith] at h
  | cons c cs =>
    simp only [startsWith, String.toList, List.isPrefixOf, Bool.and_eq_true, beq_iff_eq] at h
    simp [startsWith, String.toList, List.isPrefixOf, ← h.1]

/-- C6: for distinct square ids `source` and `target`, when the dragged item is
the source square's state and that state has an action, an originalLabel and a
currentLabel, the square-to-square branch of `handleDragEnd` returns a grid in
which `target` has exactly the source's action, originalLabel, currentLabel
and miniBoxes, `source` equals the empty square, and every other square is
unchanged; a drop of the source onto itself returns the grid unchanged. -/
theorem handleDragEnd_move (g : Grid) (source target : Str) (cell : Square) (a : Action)
    (o c : Str) (d : DragData)
    (hne : source ≠ target)
    (hs : startsWith source "square-".toList = true)
    (ht : startsWith target "square-".toList = true)
    (_hget : g.get source = some cell)
    (ha : cell.action = some a) (ho : cell.originalLabel = some o)
    (hc : cell.currentLabel = some c)
    (hty : d.type = some "grid-item".toList) (hitem : d.item = some cell) :
    (∃ next : Grid,
      handleDragEnd g { activeId := source, activeData := some d, overId := some target }
        = Except.ok next ∧
      next.get target
        = some { action := some a, label := none, originalLabel := some o,
                 currentLabel := some c, miniBoxes := cell.miniBoxes } ∧
      next.get source = some createEmptySquare ∧
      (∀ other, other ≠ source → other ≠ target → next.get other = g.get other)) ∧
    handleDragEnd g { activeId := source, activeData := some d, overId := some source }
      = Except.ok g := by
  have hsa := not_startsWith_action_of_square source hs
  have hmove : handleDragEnd g { activeId := source, activeData := some d, overId := some target }
      = Except.ok (moveSquare g source target (itemToMove cell)) := by
    simp only [handleDragEnd, Option.bind_some, hne, if_false, hsa, hs, ht, hty, hitem,
      Bool.and_false, Bool.and_true, decide_True, Bool.true_and]
    simp [hty, hitem]
  have hitm : itemToMove cell =
      ⟨some a, none, some o, some c, cell.miniBoxes⟩ := by
    simp [itemToMove, ho, hc, ha]
  rw [hitm] at hmove
  refine ⟨⟨_, hmove, ?_, ?_, ?_⟩, ?_⟩
  · unfold moveSquare
    rw [Grid.get_set_other _ _ _ _ (Ne.symm hne), Grid.get_set_same]
  · unfold moveSquare
    rw [Grid.get_set_same]
  · intro other h1 h2
    unfold moveSquare
    rw [Grid.get_set_other _ _ _ _ h1, Grid.get_set_other _ _ _ _ h2]
  · simp [handleDragEnd]

/-! ## Invariants of the reachable grids -/

theorem GridAll.set {P : Square → Prop} {g : Grid} (h : GridAll P g) (k : Str) (v : Square)
    (hv : P v) : GridAll P (g.set k v) := by
  intro k2 cell hget
  rw [Grid.get_set] at hget
  split_ifs at hget with hk
  · cases hget; exact hv
  · exact h k2 cell hget

theorem initialGridItems_all_empty :
    ∀ p ∈ initialGridItems, p.2 = createEmptySquare := by decide

theorem Grid.get_mem (g : Grid) (k : Str) (v : Square) (h : g.get k = some v) :
    ∃ p ∈ g, p.2 = v := by
  induction g with
  | nil => simp [Grid.get] at h
  | cons p rest ih =>
    obtain ⟨k1, v1⟩ := p
    simp only [Grid.get] at h
    split_ifs at h with hk
    · cases h; exact ⟨_, List.mem_cons_self _ _, rfl⟩
    · obtain ⟨q, hq, hq2⟩ := ih h
      exact ⟨q, List.mem_cons_of_mem _ hq, hq2⟩

theorem gridAll_initial {P : Square → Prop} (h : P createEmptySquare) :
    GridAll P initialGridItems := by
  intro k cell hget
  obtain ⟨p, hp, hp2⟩ := Grid.get_mem _ _ _ hget
  rw [← hp2, initialGridItems_all_empty p hp]
  exact h

theorem gridAll_rename {addOk : Grid → Str → Bool} {P : Square → Prop}
    (hP : KeptBySteps addOk P) (s : State) (squareId newLabel : Str)
    (h : GridAll P s.gridItems) : GridAll P (handleLabelChange s squareId newLabel).gridItems := by
  unfold RecipeBuilder.handleLabelChange
  split
  · exact h
  · rename_i cell hget
    split
    · exact h
    · rename_i a hact
      dsimp only
      split_ifs
      · exact h
      · exact h.set _ _ (hP.relabel cell a _ _ hact (h _ _ hget))

theorem gridAll_clear {addOk : Grid → Str → Bool} {P : Square → Prop}
    (hP : KeptBySteps addOk P) (s : State) (squareId : Str)
    (h : GridAll P s.gridItems) : GridAll P (handleDeleteAction s squareId).gridItems := by
  unfold RecipeBuilder.handleDeleteAction
  split
  · exact h
  · split
    · exact h
    · exact h.set _ _ hP.empty

theorem gridAll_addMiniBox {addOk : Grid → Str → Bool} {P : Square → Prop}
    (hP : KeptBySteps addOk P) (g : Grid) (squareId uuid : Str) (next : Grid)
    (hok : addOk g squareId = true)
    (hnext : handleAddMiniBox g squareId uuid = Except.ok next)
    (h : GridAll P g) : GridAll P next := by
  unfold RecipeBuilder.handleAddMiniBox at hnext
  split at hnext
  · cases hnext; exact h
  · cases hnext
  · rename_i cell hread
    have hget := Grid.get_of_read _ _ _ hread
    split_ifs at hnext with hlen
    · cases hnext; exact h
    · dsimp only at hnext
      split at hnext
      · cases hnext; exact h
      · rename_i pos hf
        cases hnext
        have hnot : pos ∉ cell.miniBoxes.map (·.position) := by
          have := List.find?_some hf
          simpa using this
        exact h.set _ _ (hP.add g squareId cell uuid pos hok hget (by omega) hnot (h _ _ hget))

theorem gridAll_removeMiniBox {addOk : Grid → Str → Bool} {P : Square → Prop}
    (hP : KeptBySteps addOk P) (g : Grid) (squareId miniBoxId : Str) (next : Grid)
    (hnext : handleMiniBoxDelete g squareId miniBoxId = Except.ok next)
    (h : GridAll P g) : GridAll P next := by
  unfold RecipeBuilder.handleMiniBoxDelete at hnext
  split at hnext
  · cases hnext; exact h
  · cases hnext
  · rename_i cell hread
    have hget := Grid.get_of_read _ _ _ hread
    cases hnext
    exact h.set _ _ (hP.remove cell miniBoxId (h _ _ hget))

theorem gridAll_assignMiniBox {addOk : Grid → Str → Bool} {P : Square → Prop}
    (hP : KeptBySteps addOk P) (g : Grid) (parent uuid : Str) (a : Action) (next : Grid)
    (hnext : assignMiniBox g parent uuid a = Except.ok next)
    (h : GridAll P g) : GridAll P next := by
  unfold RecipeBuilder.assignMiniBox at hnext
  split at hnext
  · cases hnext; exact h
  · cases hnext
  · rename_i cell hread
    have hget := Grid.get_of_read _ _ _ hread
    dsimp only at hnext
    split_ifs at hnext
    · cases hnext; exact h
    · cases hnext
      exact h.set _ _ (hP.assignMini cell uuid a (h _ _ hget))

theorem gridAll_drag {addOk : Grid → Str → Bool} {P : Square → Prop}
    (hP : KeptBySteps addOk P) (g : Grid) (event : DragEvent) (next : Grid)
    (hpay : payloadOk g event = true)
    (hnext : handleDragEnd g event = Except.ok next)
    (h : GridAll P g) : GridAll P next := by
  unfold RecipeBuilder.handleDragEnd at hnext
  split at hnext
  · cases hnext; exact h
  · dsimp only at hnext
    split_ifs at hnext with hsame
    · cases hnext; exact h
    · split at hnext
      · cases hnext
        exact h.set _ _ (hP.assign _)
      · split at hnext
        · rename_i dragged _ hitem
          cases hnext
          have hsrc : g.get event.activeId = some dragged := by
            simpa [payloadOk, hitem] using hpay
          exact (h.set _ _ (hP.move _ (h _ _ hsrc))).set _ _ hP.empty
        · split at hnext
          · exact gridAll_assignMiniBox hP _ _ _ _ _ hnext h
          · cases hnext; exact h

theorem gridAll_step {addOk : Grid → Str → Bool} {P : Square → Prop}
    (hP : KeptBySteps addOk P) {s t : State} (hst : StepWith addOk s t)
    (h : GridAll P s.gridItems) : GridAll P t.gridItems := by
  cases hst with
  | rename squareId newLabel => exact gridAll_rename hP s _ _ h
  | clear squareId => exact gridAll_clear hP s _ h
  | addMiniBox squareId uuid next hok hnext => exact gridAll_addMiniBox hP _ _ _ _ hok hnext h
  | removeMiniBox squareId miniBoxId next hnext =>
    exact gridAll_removeMiniBox hP _ _ _ _ hnext h
  | drag event next hpay hnext => exact gridAll_drag hP _ _ _ hpay hnext h

theorem gridAll_reachable {addOk : Grid → Str → Bool} {P : Square → Prop}
    (hP : KeptBySteps addOk P) {s : State} (hs : ReachableWith addOk s) :
    GridAll P s.gridItems := by
  induction hs with
  | init => exact gridAll_initial hP.empty
  | step _ hst ih => exact gridAll_step hP hst ih

theorem miniBoxesOk_kept (addOk : Grid → Str → Bool) : KeptBySteps addOk miniBoxesOk where
  empty := by simp [miniBoxesOk, createEmptySquare]
  relabel := by
    intro cell a o n _ h
    exact h
  add := by
    intro g squareId cell uuid pos _ _ hlen hpos h
    refine ⟨?_, ?_⟩
    · simp only [List.length_append, List.length_singleton]; omega
    · simp only [List.map_append, List.map_cons, List.map_nil]
      rw [List.nodup_append]
      refine ⟨h.2, by simp, ?_⟩
      intro x hx hx2
      simp only [List.mem_singleton] at hx2
      subst hx2
      exact hpos hx
  remove := by
    intro cell miniBoxId h
    refine ⟨?_, ?_⟩
    · exact le_trans (List.length_filter_le _ _) h.1
    · exact h.2.sublist (List.Sublist.map _ (List.filter_sublist _))
  assign := by
    intro a
    simp [miniBoxesOk]
  move := by
    intro cell h
    exact h
  assignMini := by
    intro cell uuid a h
    have hmap : (cell.miniBoxes.map (fun mb =>
        if mb.id = uuid then { mb with action := some a } else mb)).map (·.position)
          = cell.miniBoxes.map (·.position) := by
      rw [List.map_map]
      apply List.map_congr_left
      intro mb _
      simp only [Function.comp]
      split_ifs <;> rfl
    refine ⟨?_, ?_⟩
    · simpa using h.1
    · show (List.map _ (List.map _ cell.miniBoxes)).Nodup
      rw [hmap]
      exact h.2

theorem emptyOk_kept : KeptBySteps hasAction emptyOk where
  empty := by simp [emptyOk, createEmptySquare]
  relabel := by
    intro cell a o n hact _ hnone
    simp [hact] at hnone
  add := by
    intro g squareId cell uuid pos hok hget _ _ _ hnone
    simp only [hasAction, hget] at hok
    simp only at hnone
    simp [hnone] at hok
  remove := by
    intro cell miniBoxId h hnone
    have := h hnone
    simp [this]
  assign := by
    intro a hnone
    simp at hnone
  move := by
    intro cell h hnone
    exact h hnone
  assignMini := by
    intro cell uuid a h hnone
    have := h hnone
    simp [this]

/-- C9: in every grid reachable from the initial 5x5 empty grid by rename,
clear, addMiniBox, removeMiniBox and drag steps (assign, move, assignMiniBox),
every square's miniBoxes list has length at most 3 and the position tags
within one square's miniBoxes are pairwise distinct. -/
theorem reachable_miniBoxes_capacity (s : State) (hs : Reachable s) (squareId : Str)
    (cell : Square) (hget : s.gridItems.get squareId = some cell) :
    cell.miniBoxes.length ≤ 3 ∧ (cell.miniBoxes.map (·.position)).Nodup :=
  gridAll_reachable (miniBoxesOk_kept _) hs squareId cell hget

/-- C10, as amended: in every grid reachable from the initial 5x5 empty grid by
rename, clear, removeMiniBox and drag steps, and addMiniBox steps invoked only
on squares that hold an action, every square that has no action has an empty
miniBoxes list. -/
theorem reachableGuarded_empty_cell (s : State) (hs : ReachableGuarded s) (squareId : Str)
    (cell : Square) (hget : s.gridItems.get squareId = some cell)
    (hnone : cell.action = none) : cell.miniBoxes = [] :=
  gridAll_reachable emptyOk_kept hs squareId cell hget hnone

/-! ## Generated lines under renames -/

theorem lf_not_mem_trim_of_mem_split (notes line : Str) (h : line ∈ split LF notes) :
    LF ∉ trim line :=
  not_mem_trim LF line (sep_not_mem_of_mem_split LF notes line h)

theorem noteLine_cons (c : Char) (rest l : Str) :
    noteLine (c :: rest) l = c :: (rest ++ " --> (".toList ++ l ++ ")".toList) := by
  simp [noteLine]

theorem noteLine_concat (o l : Str) :
    noteLine o l = (o ++ " --> (".toList ++ l) ++ [Char.ofNat 41] := by
  simp [noteLine]

theorem trim_noteLine (c : Char) (rest l : Str) (hc : isTrimChar c = false) :
    trim (noteLine (c :: rest) l) = noteLine (c :: rest) l :=
  trim_eq_self _ c _ (Char.ofNat 41) _ (noteLine_cons c rest l) (noteLine_concat _ l) hc
    (by decide)

theorem lf_not_mem_noteLine (o l : Str) (ho : LF ∉ o) (hl : LF ∉ l) : LF ∉ noteLine o l := by
  have h1 : LF ∉ " --> (".toList := by decide
  have h2 : LF ∉ ")".toList := by decide
  simp only [noteLine, List.mem_append, not_or]
  exact ⟨⟨⟨ho, h1⟩, hl⟩, h2⟩

/-- No line of any blob is a generated line for an original label that is
empty, contains a line feed, or starts with a trimmable character. -/
theorem generatedLines_eq_nil_of_bad_label (o notes : Str)
    (h : o = [] ∨ LF ∈ o ∨ ∃ c rest, o = c :: rest ∧ isTrimChar c = true) :
    generatedLines o notes = [] := by
  unfold generatedLines
  rw [List.filter_eq_nil_iff]
  intro line hline hgen
  obtain ⟨x, hx⟩ := (isGeneratedLine_iff o (trim line)).1 hgen
  rcases h with h | h | ⟨c, rest, h, hc⟩
  · subst h
    have h2 : trim line = Char.ofNat 32 :: ("--> (".toList ++ x ++ ")".toList) := by
      rw [hx]; simp [noteLine]
    have := trim_head_not_trimChar line _ _ h2
    revert this; decide
  · apply lf_not_mem_trim_of_mem_split notes line hline
    rw [hx]
    simp [noteLine, h]
  · subst h
    rw [noteLine_cons] at hx
    have := trim_head_not_trimChar line _ _ hx
    rw [hc] at this
    exact absurd this (by simp)

/-- One rename step on a blob whose generated lines all carry the old label:
the lines of the new blob are the non-blank lines that are not the old
pattern, followed by the new generated line. -/
theorem split_renameNotes (notes l n : Str) (c : Char) (rest : Str)
    (hc : isTrimChar c = false) (ho : LF ∉ c :: rest) (hn : LF ∉ n)
    (hgen : ∀ line ∈ split LF notes, isGeneratedLine (c :: rest) (trim line) = true →
      trim line = noteLine (c :: rest) l) :
    split LF (renameNotes notes (c :: rest) l n) =
      ((split LF notes).filter (fun line => decide (trim line ≠ noteLine (c :: rest) l))).filter
        (fun line => decide (trim line ≠ [])) ++ [noteLine (c :: rest) n] := by
  rw [renameNotes_eq_spec _ _ _ _ (by simp)]
  unfold renameNotesSpec
  have hany : ((split LF notes).filter
      (fun line => decide (trim line ≠ noteLine (c :: rest) l))).any
        (fun line => decide (trim line = noteLine (c :: rest) n)) = false := by
    rw [Bool.eq_false_iff]
    intro hh
    rw [List.any_eq_true] at hh
    obtain ⟨line, hline, hl⟩ := hh
    rw [List.mem_filter] at hline
    have h1 : trim line = noteLine (c :: rest) n := by simpa using hl
    have h2 : trim line ≠ noteLine (c :: rest) l := by simpa using hline.2
    exact h2 (hgen line hline.1 ((isGeneratedLine_iff _ _).2 ⟨n, h1⟩))
  simp only [hany, Bool.false_eq_true, if_false]
  have hnew : trim (noteLine (c :: rest) n) ≠ [] := by
    rw [trim_noteLine c rest n hc]; exact noteLine_ne_nil _ _
  rw [List.filter_append]
  have hsingle : [noteLine (c :: rest) n].filter (fun line => decide (trim line ≠ []))
      = [noteLine (c :: rest) n] := by
    simp [hnew]
  rw [hsingle]
  apply split_join
  · simp
  · intro x hx
    rw [List.mem_append] at hx
    rcases hx with hx | hx
    · have := (List.mem_filter.1 (List.mem_filter.1 hx).1).1
      exact sep_not_mem_of_mem_split LF notes x this
    · rw [List.mem_singleton] at hx
      rw [hx]
      exact lf_not_mem_noteLine _ _ ho hn

theorem generatedLines_renameNotes (notes l n : Str) (c : Char) (rest : Str)
    (hc : isTrimChar c = false) (ho : LF ∉ c :: rest) (hn : LF ∉ n)
    (hgen : ∀ line ∈ split LF notes, isGeneratedLine (c :: rest) (trim line) = true →
      trim line = noteLine (c :: rest) l) :
    generatedLines (c :: rest) (renameNotes notes (c :: rest) l n) = [noteLine (c :: rest) n] := by
  unfold generatedLines
  rw [split_renameNotes notes l n c rest hc ho hn hgen, List.filter_append]
  have h1 : (((split LF notes).filter
      (fun line => decide (trim line ≠ noteLine (c :: rest) l))).filter
        (fun line => decide (trim line ≠ []))).filter
          (fun line => isGeneratedLine (c :: rest) (trim line)) = [] := by
    rw [List.filter_eq_nil_iff]
    intro line hline hg
    have hm := List.mem_filter.1 (List.mem_filter.1 hline).1
    have h2 : trim line ≠ noteLine (c :: rest) l := by simpa using hm.2
    exact h2 (hgen line hm.1 hg)
  have h2 : isGeneratedLine (c :: rest) (trim (noteLine (c :: rest) n)) = true := by
    rw [trim_noteLine c rest n hc]
    exact (isGeneratedLine_iff _ _).2 ⟨n, rfl⟩
  rw [h1]
  simp [h2]

theorem renameInv_of_no_generated (o squareId : Str) (s : State) (cell : Square)
    (hget : s.gridItems.get squareId = some cell) (ho : originalLabelOf cell = o)
    (hstart : generatedLines o s.notes = []) : RenameInv o squareId s := by
  refine ⟨cell, hget, ho, ?_, by simp [hstart]⟩
  intro line hline hg
  have : line ∈ generatedLines o s.notes := List.mem_filter.2 ⟨hline, hg⟩
  rw [hstart] at this
  exact absurd this (List.not_mem_nil _)

theorem renameInv_rename (squareId n : Str) (c : Char) (rest : Str) (s : State)
    (hc : isTrimChar c = false) (ho : LF ∉ c :: rest) (hn : LF ∉ n)
    (h : RenameInv (c :: rest) squareId s) :
    RenameInv (c :: rest) squareId (handleLabelChange s squareId n) := by
  obtain ⟨cell, hget, horig, hgen, hlen⟩ := h
  unfold RecipeBuilder.handleLabelChange
  rw [hget]
  dsimp only
  split
  · exact ⟨cell, hget, horig, hgen, hlen⟩
  · split_ifs with hsame
    · exact ⟨cell, hget, horig, hgen, hlen⟩
    · rw [horig]
      have hg := generatedLines_renameNotes s.notes (currentLabelOf cell) n c rest hc ho hn hgen
      refine ⟨_, Grid.get_set_same _ _ _, rfl, ?_, ?_⟩
      · intro line hline hgl
        have hmem : line ∈ generatedLines (c :: rest)
            (renameNotes s.notes (c :: rest) (currentLabelOf cell) n) :=
          List.mem_filter.2 ⟨hline, hgl⟩
        rw [hg, List.mem_singleton] at hmem
        rw [hmem, trim_noteLine c rest n hc]
        rfl
      · show (generatedLines (c :: rest)
            (renameNotes s.notes (c :: rest) (currentLabelOf cell) n)).length ≤ 1
        rw [hg]
        simp

theorem renameInv_renameSeq_kept (squareId : Str) (c : Char) (rest : Str)
    (hc : isTrimChar c = false) (ho : LF ∉ c :: rest) (labels : List Str) :
    ∀ s : State, (∀ n ∈ labels, LF ∉ n) → RenameInv (c :: rest) squareId s →
      RenameInv (c :: rest) squareId (renameSeq s squareId labels) := by
  induction labels with
  | nil => intro s _ h; exact h
  | cons n ns ih =>
    intro s hl h
    have h1 := renameInv_rename squareId n c rest s hc ho
      (hl n (List.mem_cons_self _ _)) h
    exact ih _ (fun m hm => hl m (List.mem_cons_of_mem _ hm)) h1

/-- The round trip in general: for a square with an action whose original and
current label are both `A` (non-empty, not starting with a trimmable character,
without line feed), on a blob with no generated line for `A`, renaming to a
different label `B` without line feed and then back to `A` leaves exactly one
generated line, `A --> (A)`. -/
theorem rename_round_trip_generated_line (s : State) (squareId : Str) (cell : Square)
    (a : Action) (c : Char) (rest B : Str)
    (hget : s.gridItems.get squareId = some cell) (hact : cell.action = some a)
    (horig : cell.originalLabel = some (c :: rest))
    (hcur : cell.currentLabel = some (c :: rest))
    (hc : isTrimChar c = false) (hA : LF ∉ c :: rest) (hB : LF ∉ B) (hne : B ≠ c :: rest)
    (hstart : generatedLines (c :: rest) s.notes = []) :
    generatedLines (c :: rest) (renameSeq s squareId [B, c :: rest]).notes
      = [noteLine (c :: rest) (c :: rest)] := by
  have ho : originalLabelOf cell = c :: rest := by simp [originalLabelOf, horig]
  have hl : currentLabelOf cell = c :: rest := by simp [currentLabelOf, hcur]
  have h0 : ∀ line ∈ split LF s.notes, isGeneratedLine (c :: rest) (trim line) = true →
      trim line = noteLine (c :: rest) (c :: rest) := by
    intro line hline hg
    have : line ∈ generatedLines (c :: rest) s.notes := List.mem_filter.2 ⟨hline, hg⟩
    rw [hstart] at this
    exact absurd this (List.not_mem_nil _)
  have hstep1 : handleLabelChange s squareId B =
      { gridItems := s.gridItems.set squareId
          { cell with originalLabel := some (c :: rest), currentLabel := some B, label := none }
        notes := renameNotes s.notes (c :: rest) (c :: rest) B } := by
    simp only [handleLabelChange, hget, hact, ho, hl]
    rw [if_neg (Ne.symm hne)]
  have hg1 := generatedLines_renameNotes s.notes (c :: rest) B c rest hc hA hB h0
  have h1 : ∀ line ∈ split LF (renameNotes s.notes (c :: rest) (c :: rest) B),
      isGeneratedLine (c :: rest) (trim line) = true → trim line = noteLine (c :: rest) B := by
    intro line hline hg
    have : line ∈ generatedLines (c :: rest) (renameNotes s.notes (c :: rest) (c :: rest) B) :=
      List.mem_filter.2 ⟨hline, hg⟩
    rw [hg1, List.mem_singleton] at this
    rw [this, trim_noteLine c rest B hc]
  have hstep2 : (renameSeq s squareId [B, c :: rest]).notes =
      renameNotes (renameNotes s.notes (c :: rest) (c :: rest) B) (c :: rest) B (c :: rest) := by
    simp only [renameSeq, List.foldl_cons, List.foldl_nil, hstep1]
    simp only [handleLabelChange, Grid.get_set_same, hact, originalLabelOf, currentLabelOf]
    rw [if_neg hne]
  rw [hstep2]
  exact generatedLines_renameNotes _ B (c :: rest) c rest hc hA hA h1

/-- C1: the round trip on the code. Starting from empty notes, renaming the
square holding "Boil Water" to "Simmer" and back leaves the generated line
`Boil Water --> (Boil Water)` in the notes blob instead of no generated line. -/
theorem rename_round_trip_leaves_line :
    generatedLines "Boil Water".toList assignedState.notes = [] ∧
      (renameSeq assignedState sq00 ["Simmer".toList, "Boil Water".toList]).notes
        = "Boil Water --> (Boil Water)".toList ∧
      generatedLines "Boil Water".toList
          (renameSeq assignedState sq00 ["Simmer".toList, "Boil Water".toList]).notes
        = ["Boil Water --> (Boil Water)".toList] := by
  decide

/-- C2, as stated, fails: a new label that contains a line feed leaves two
lines of the generated form in the notes blob. -/
theorem rename_sequence_duplicate_with_line_feed :
    ¬ ∀ (s : State) (squareId : Str) (cell : Square) (labels : List Str),
        s.gridItems.get squareId = some cell →
        generatedLines (originalLabelOf cell) s.notes = [] →
        (generatedLines (originalLabelOf cell) (renameSeq s squareId labels).notes).length ≤ 1 := by
  intro h
  have h1 := h assignedState sq00 assignedCell ["x)\nBoil Water --> (y".toList]
    (by decide) (by decide)
  revert h1
  decide

/-- C2, as amended: starting from a notes blob with no generated line for a
square whose original label is O, after every finite sequence of renames of
that square with new labels that contain no line feed, the notes blob holds at
most one line whose trimmed content has the form `O --> (<label>)`. -/
theorem rename_sequence_at_most_one_line (s : State) (squareId : Str) (cell : Square)
    (labels : List Str)
    (hget : s.gridItems.get squareId = some cell)
    (hstart : generatedLines (originalLabelOf cell) s.notes = [])
    (hlabels : ∀ n ∈ labels, LF ∉ n) :
    (generatedLines (originalLabelOf cell) (renameSeq s squareId labels).notes).length ≤ 1 := by
  cases ho : originalLabelOf cell with
  | nil => simp [generatedLines_eq_nil_of_bad_label [] _ (Or.inl rfl)]
  | cons c rest =>
    by_cases hlf : LF ∈ c :: rest
    · simp [generatedLines_eq_nil_of_bad_label (c :: rest) _ (Or.inr (Or.inl hlf))]
    · cases hc : isTrimChar c with
      | true =>
        simp [generatedLines_eq_nil_of_bad_label (c :: rest) _ (Or.inr (Or.inr ⟨c, rest, rfl, hc⟩))]
      | false =>
        rw [ho] at hstart
        have hinv := renameInv_renameSeq_kept squareId c rest hc hlf labels s hlabels
          (renameInv_of_no_generated _ _ s cell hget ho hstart)
        exact hinv.choose_spec.2.2.2

theorem rename_sequence_at_most_one_line_witness :
    (generatedLines "Boil Water".toList
      (renameSeq assignedState sq00
        ["Simmer".toList, "Poach".toList, "Boil Water".toList, "Steam".toList]).notes).length ≤ 1 :=
  rename_sequence_at_most_one_line assignedState sq00 assignedCell
    ["Simmer".toList, "Poach".toList, "Boil Water".toList, "Steam".toList]
    (by decide) (by decide) (by decide)

/-! ## Instances on sample data -/

theorem handleLabelChange_notes_eq_spec_witness :
    (handleLabelChange (withNotes renamedState "x\n\nBoil Water --> (Simmer)\n y ".toList)
        sq00 "Poach".toList).notes
      = renameNotesSpec "x\n\nBoil Water --> (Simmer)\n y ".toList "Boil Water".toList
          "Simmer".toList "Poach".toList ∧
    renameNotesSpec "x\n\nBoil Water --> (Simmer)\n y ".toList "Boil Water".toList
          "Simmer".toList "Poach".toList
      = "x\n y \nBoil Water --> (Poach)".toList :=
  ⟨handleLabelChange_notes_eq_spec
      (withNotes renamedState "x\n\nBoil Water --> (Simmer)\n y ".toList) sq00 renamedCell
      boilWater "Boil Water".toList "Simmer".toList "Poach".toList
      (by decide) (by decide) (by decide) (by decide) (by decide) (by decide),
    by decide⟩

/-- C4, as stated, fails: when no line of the blob matches the pattern the
blob is returned as it is, not trimmed. -/
theorem handleDeleteAction_notes_untrimmed :
    ¬ ∀ (s : State) (squareId : Str) (cell : Square) (a : Action) (o c : Str),
        s.gridItems.get squareId = some cell → cell.action = some a →
        originalLabelOf cell = o → o ≠ [] → currentLabelOf cell = c → o ≠ c →
        (handleDeleteAction s squareId).notes = clearNotesSpec s.notes o c := by
  intro h
  have h1 := h (withNotes renamedState "x\n".toList) sq00 renamedCell boilWater
    "Boil Water".toList "Simmer".toList
    (by decide) (by decide) (by decide) (by decide) (by decide) (by decide)
  revert h1
  decide

theorem handleDeleteAction_notes_rewrite_witness :
    (handleDeleteAction (withNotes renamedState " x\n\nBoil Water --> (Simmer)\n\ny\n".toList)
        sq00).notes = "x\n\n\ny".toList := by
  have h := handleDeleteAction_notes_rewrite
    (withNotes renamedState " x\n\nBoil Water --> (Simmer)\n\ny\n".toList) sq00 renamedCell
    boilWater "Boil Water".toList "Simmer".toList
    (by decide) (by decide) (by decide) (by decide) (by decide) (by decide)
  rw [h]
  decide

theorem handleAddMiniBox_on_empty_square :
    handleAddMiniBox initialGridItems sq00 "u1".toList = Except.ok boxOnEmptyGrid := by
  decide

/-- C5, as stated, fails: the guard returns the grid unchanged for a square
without action, so the action-less square that holds a mini-box (the grid left
by one `handleAddMiniBox` on the initial grid) is not reset. -/
theorem handleDeleteAction_keeps_actionless_square :
    ¬ ∀ (s : State) (squareId : Str) (cell : Square),
        s.gridItems.get squareId = some cell →
        originalLabelOf cell = currentLabelOf cell →
        (handleDeleteAction s squareId).notes = s.notes ∧
          (handleDeleteAction s squareId).gridItems.get squareId = some createEmptySquare := by
  intro h
  have h1 := h { gridItems := boxOnEmptyGrid, notes := [] } sq00
    { createEmptySquare with miniBoxes := [emptyBox "u1".toList "right".toList] }
    (by decide) (by decide)
  revert h1
  decide

theorem handleDeleteAction_never_renamed_witness :
    (handleDeleteAction (withNotes assignedState " keep \n\n".toList) sq00).notes
        = " keep \n\n".toList ∧
      (handleDeleteAction (withNotes assignedState " keep \n\n".toList) sq00).gridItems.get sq00
        = some createEmptySquare ∧
      (handleDeleteAction { gridItems := boxOnEmptyGrid, notes := [] } sq00).gridItems
        = boxOnEmptyGrid :=
  have h := handleDeleteAction_never_renamed (withNotes assignedState " keep \n\n".toList) sq00
    assignedCell (by decide) (by decide)
  have h2 := handleDeleteAction_never_renamed { gridItems := boxOnEmptyGrid, notes := [] } sq00
    { createEmptySquare with miniBoxes := [emptyBox "u1".toList "right".toList] }
    (by decide) (by decide)
  ⟨h.1, (h.2.1 (by decide)).2, h2.2.2 rfl⟩

theorem handleDragEnd_move_witness :
    ∃ next : Grid,
      handleDragEnd renamedState.gridItems dragToNeighbour = Except.ok next ∧
      next.get sq01 = some renamedCell ∧
      next.get sq00 = some createEmptySquare := by
  obtain ⟨⟨next, hok, htarget, hsource, _⟩, _⟩ :=
    handleDragEnd_move renamedState.gridItems sq00 sq01 renamedCell boilWater
      "Boil Water".toList "Simmer".toList
      { type := some "grid-item".toList, item := some renamedCell, action := none }
      (by decide) (by decide) (by decide) (by decide) (by decide) (by decide) (by decide)
      (by decide) (by decide)
  exact ⟨next, hok, htarget, hsource⟩

/-- C7, as stated, fails: `constructor` is not a square of the initial grid,
yet `prev["constructor"]` is the inherited (truthy) member and the updater
throws instead of returning the grid. -/
theorem handleAddMiniBox_throws_on_inherited_key :
    ¬ ∀ (g : Grid) (squareId uuid : Str),
        (g.get squareId = none ∨
          ∃ cell, g.get squareId = some cell ∧ cell.miniBoxes.length = 3) →
        handleAddMiniBox g squareId uuid = Except.ok g := by
  intro h
  have h1 := h initialGridItems "constructor".toList "u1".toList (Or.inl (by decide))
  revert h1
  decide

theorem handleAddMiniBox_at_capacity_witness :
    threeBoxesCell.miniBoxes.length = 3 ∧
      handleAddMiniBox threeBoxesGrid sq00 "u4".toList = Except.ok threeBoxesGrid ∧
      handleAddMiniBox threeBoxesGrid "square-9-9".toList "u4".toList
        = Except.ok threeBoxesGrid :=
  ⟨by decide,
    handleAddMiniBox_at_capacity threeBoxesGrid sq00 "u4".toList
      (Or.inr ⟨threeBoxesCell, by decide, by decide⟩),
    handleAddMiniBox_at_capacity threeBoxesGrid "square-9-9".toList "u4".toList
      (Or.inl ⟨by decide, by decide⟩)⟩

theorem handleAddMiniBox_position_witness :
    ∃ next : Grid,
      handleAddMiniBox assignedState.gridItems sq00 "u1".toList = Except.ok next ∧
      next.get sq00
        = some { action := some boilWater, label := none,
                 originalLabel := some "Boil Water".toList,
                 currentLabel := some "Boil Water".toList,
                 miniBoxes := [{ id := "u1".toList, action := none, position := "right".toList }] } := by
  obtain ⟨pos, hpos, next, hok, hget, _⟩ := handleAddMiniBox_position assignedState.gridItems sq00
    "u1".toList assignedCell (by decide) (by decide)
  rcases hpos with ⟨rfl, _⟩ | ⟨_, h, _⟩ | ⟨_, h, _⟩
  · exact ⟨next, hok, hget⟩
  · exact absurd h (by decide)
  · exact absurd h (by decide)

theorem reachable_assignedState (addOk : Grid → Str → Bool) :
    ReachableWith addOk assignedState :=
  ReachableWith.step ReachableWith.init
    (StepWith.drag initialState dropBoilWater assignedState.gridItems (by decide) (by decide))

theorem reachable_threeBoxes : Reachable { gridItems := threeBoxesGrid, notes := [] } :=
  ReachableWith.step
    (ReachableWith.step
      (ReachableWith.step (reachable_assignedState _)
        (StepWith.addMiniBox assignedState sq00 "u1".toList oneBoxGrid rfl (by decide)))
      (StepWith.addMiniBox _ sq00 "u2".toList twoBoxesGrid rfl (by decide)))
    (StepWith.addMiniBox _ sq00 "u3".toList threeBoxesGrid rfl (by decide))

theorem reachable_miniBoxes_capacity_witness :
    threeBoxesCell.miniBoxes.length ≤ 3 ∧
      (threeBoxesCell.miniBoxes.map (·.position)).Nodup :=
  reachable_miniBoxes_capacity { gridItems := threeBoxesGrid, notes := [] }
    reachable_threeBoxes sq00 threeBoxesCell (by decide)

/-- C10, as stated, fails: `handleAddMiniBox` does not look at the action, so
one addMiniBox step on the initial grid leaves a square with no action and one
mini-box. -/
theorem reachable_empty_cell_with_miniBox :
    ¬ ∀ (s : State), Reachable s → ∀ (squareId : Str) (cell : Square),
        s.gridItems.get squareId = some cell → cell.action = none → cell.miniBoxes = [] := by
  intro h
  have hr : Reachable { initialState with gridItems := boxOnEmptyGrid } :=
    ReachableWith.step ReachableWith.init
      (StepWith.addMiniBox initialState sq00 "u1".toList boxOnEmptyGrid rfl
        handleAddMiniBox_on_empty_square)
  have h1 := h _ hr sq00
    { action := none, label := some [], originalLabel := none, currentLabel := none,
      miniBoxes := [{ id := "u1".toList, action := none, position := "right".toList }] }
    (by decide) rfl
  revert h1
  decide

theorem reachableGuarded_cleared :
    ReachableGuarded
      (handleDeleteAction { assignedState with gridItems := oneBoxGrid } sq00) :=
  ReachableWith.step
    (ReachableWith.step (reachable_assignedState _)
      (StepWith.addMiniBox assignedState sq00 "u1".toList oneBoxGrid (by decide) (by decide)))
    (StepWith.clear _ sq00)

theorem reachableGuarded_empty_cell_witness :
    createEmptySquare.action = none ∧ createEmptySquare.miniBoxes = [] :=
  ⟨rfl, reachableGuarded_empty_cell _ reachableGuarded_cleared sq00 createEmptySquare
    (by decide) rfl⟩

/-! ## Drag-and-drop branches -/

/-- C11: for every grid, every target id starting with `square-`, every source
id starting with `action-` and every palette action, `handleDragEnd` returns a
grid in which the target square has that action, originalLabel and
currentLabel both equal to the action's name (the empty string when the name
is undefined) and an empty miniBoxes list, whatever the square held before,
and every other square is unchanged. -/
theorem handleDragEnd_assign (g : Grid) (source target : Str) (d : DragData) (a : Action)
    (ht : startsWith target "square-".toList = true)
    (hs : startsWith source "action-".toList = true)
    (ha : d.action = some a) :
    ∃ next : Grid,
      handleDragEnd g { activeId := source, activeData := some d, overId := some target }
        = Except.ok next ∧
      next.get target
        = some ⟨some a, none, some (orElse a.name []), some (orElse a.name []), []⟩ ∧
      (∀ n, a.name = some n → orElse a.name [] = n) ∧
      (∀ other, other ≠ target → next.get other = g.get other) := by
  have hne : source ≠ target := by
    intro h
    rw [h] at hs
    rw [not_startsWith_action_of_square target ht] at hs
    exact absurd hs (by simp)
  have hassign : handleDragEnd g { activeId := source, activeData := some d, overId := some target }
      = Except.ok (assignSquare g target a) := by
    simp only [handleDragEnd, Option.bind_some, hne, if_false, ht, hs, ha, Bool.and_true]
    simp [ha]
  refine ⟨_, hassign, ?_, ?_, ?_⟩
  · unfold assignSquare
    rw [Grid.get_set_same]
  · intro n hn
    cases n with
    | nil => simp [hn, orElse, truthy]
    | cons c cs => simp [hn, orElse, truthy]
  · intro other ho
    unfold assignSquare
    rw [Grid.get_set_other _ _ _ _ ho]

theorem not_startsWith_square_of_minibox (s : Str)
    (h : startsWith s "minibox-".toList = true) : startsWith s "square-".toList = false := by
  cases s with
  | nil => simp [startsWith] at h
  | cons c cs =>
    simp only [startsWith, String.toList, List.isPrefixOf, Bool.and_eq_true, beq_iff_eq] at h
    simp [startsWith, String.toList, List.isPrefixOf, ← h.1]

theorem not_startsWith_minibox_of_action (s : Str)
    (h : startsWith s "action-".toList = true) : startsWith s "minibox-".toList = false := by
  cases s with
  | nil => simp [startsWith] at h
  | cons c cs =>
    simp only [startsWith, String.toList, List.isPrefixOf, Bool.and_eq_true, beq_iff_eq] at h
    simp [startsWith, String.toList, List.isPrefixOf, ← h.1]

/-- The palette-to-mini-box branch of `handleDragEnd` runs the updater
`assignMiniBox` on the parsed parent square id and mini-box id. -/
theorem handleDragEnd_minibox (g : Grid) (source target : Str) (d : DragData) (a : Action)
    (ht : startsWith target "minibox-".toList = true)
    (hs : startsWith source "action-".toList = true)
    (ha : d.action = some a) :
    handleDragEnd g { activeId := source, activeData := some d, overId := some target }
      = assignMiniBox g (parseMiniBoxTarget target).1 (parseMiniBoxTarget target).2 a := by
  have hne : source ≠ target := by
    intro h
    rw [h] at hs
    rw [not_startsWith_minibox_of_action target hs] at ht
    exact absurd ht (by simp)
  have hsq := not_startsWith_square_of_minibox target ht
  simp only [handleDragEnd, Option.bind_some, hne, if_false, ht, hs, ha, hsq, Bool.and_true,
    Bool.false_and]
  simp [ha]

/-- The palette-to-mini-box updater: unchanged grid when the parent id reads as
`undefined` or none of the square's mini-boxes has the given id; otherwise the
action of every mini-box with that id is set and nothing else changes. -/
theorem assignMiniBox_spec (g : Grid) (parentSquareId miniBoxUuid : Str) (a : Action) :
    (g.get parentSquareId = none → parentSquareId ∉ objectPrototypeKeys →
      assignMiniBox g parentSquareId miniBoxUuid a = Except.ok g) ∧
    (∀ cell, g.get parentSquareId = some cell →
      (∀ mb ∈ cell.miniBoxes, mb.id ≠ miniBoxUuid) →
      assignMiniBox g parentSquareId miniBoxUuid a = Except.ok g) ∧
    (∀ cell, g.get parentSquareId = some cell →
      (∃ mb ∈ cell.miniBoxes, mb.id = miniBoxUuid) →
      ∃ (next : Grid) (boxes : List MiniBox),
        assignMiniBox g parentSquareId miniBoxUuid a = Except.ok next ∧
        next.get parentSquareId
          = some ⟨cell.action, cell.label, cell.originalLabel, cell.currentLabel, boxes⟩ ∧
        List.Forall₂ (fun old new => new.id = old.id ∧ new.position = old.position ∧
          new.action = if old.id = miniBoxUuid then some a else old.action)
          cell.miniBoxes boxes ∧
        ∀ other, other ≠ parentSquareId → next.get other = g.get other) := by
  refine ⟨?_, ?_, ?_⟩
  · intro h hk
    simp [assignMiniBox, Grid.read_undefined g parentSquareId h hk]
  · intro cell hget hnone
    have : cell.miniBoxes.any (fun mb => decide (mb.id = miniBoxUuid)) = false := by
      rw [Bool.eq_false_iff]
      intro h
      rw [List.any_eq_true] at h
      obtain ⟨mb, hmb, hid⟩ := h
      exact hnone mb hmb (by simpa using hid)
    simp [assignMiniBox, Grid.read_of_get g parentSquareId cell hget, this]
  · intro cell hget hsome
    have hany : cell.miniBoxes.any (fun mb => decide (mb.id = miniBoxUuid)) = true := by
      rw [List.any_eq_true]
      obtain ⟨mb, hmb, hid⟩ := hsome
      exact ⟨mb, hmb, by simpa using hid⟩
    have hres : assignMiniBox g parentSquareId miniBoxUuid a =
        Except.ok (g.set parentSquareId
          ⟨cell.action, cell.label, cell.originalLabel, cell.currentLabel,
            cell.miniBoxes.map (fun mb =>
              if mb.id = miniBoxUuid then { mb with action := some a } else mb)⟩) := by
      simp [assignMiniBox, Grid.read_of_get g parentSquareId cell hget, hany]
    refine ⟨_, _, hres, Grid.get_set_same _ _ _, ?_, ?_⟩
    · rw [List.forall₂_map_right_iff]
      apply List.forall₂_same.2
      intro mb _
      by_cases h : mb.id = miniBoxUuid
      · simp [h]
      · simp [h]
    · intro other ho
      rw [Grid.get_set_other _ _ _ _ ho]

/-- C13, as amended: in the palette-to-mini-box branch of `handleDragEnd`, with
the parent square id and the mini-box id parsed from the target id, the grid
is returned unchanged when the parent id is neither a key of the grid nor the
name of a member inherited from `Object.prototype`, or when no mini-box of the
parent square has the given id; otherwise the action of every mini-box with
that id is set to the dropped action, and each mini-box's id and position, the
order and length of the list, the action of the other mini-boxes, the square's
action and labels, and all other squares are kept. -/
theorem handleDragEnd_assignMiniBox (g : Grid) (source target parentSquareId miniBoxUuid : Str)
    (d : DragData) (a : Action)
    (ht : startsWith target "minibox-".toList = true)
    (hs : startsWith source "action-".toList = true)
    (ha : d.action = some a)
    (hparse : parseMiniBoxTarget target = (parentSquareId, miniBoxUuid)) :
    (g.get parentSquareId = none → parentSquareId ∉ objectPrototypeKeys →
      handleDragEnd g { activeId := source, activeData := some d, overId := some target }
        = Except.ok g) ∧
    (∀ cell, g.get parentSquareId = some cell →
      (∀ mb ∈ cell.miniBoxes, mb.id ≠ miniBoxUuid) →
      handleDragEnd g { activeId := source, activeData := some d, overId := some target }
        = Except.ok g) ∧
    (∀ cell, g.get parentSquareId = some cell →
      (∃ mb ∈ cell.miniBoxes, mb.id = miniBoxUuid) →
      ∃ (next : Grid) (boxes : List MiniBox),
        handleDragEnd g { activeId := source, activeData := some d, overId := some target }
          = Except.ok next ∧
        next.get parentSquareId
          = some ⟨cell.action, cell.label, cell.originalLabel, cell.currentLabel, boxes⟩ ∧
        List.Forall₂ (fun old new => new.id = old.id ∧ new.position = old.position ∧
          new.action = if old.id = miniBoxUuid then some a else old.action)
          cell.miniBoxes boxes ∧
        ∀ other, other ≠ parentSquareId → next.get other = g.get other) := by
  rw [handleDragEnd_minibox g source target d a ht hs ha, hparse]
  exact assignMiniBox_spec g parentSquareId miniBoxUuid a

/-- C14: for a square id `square-<row>-<col>` whose row and col contain no
hyphen, and every mini-box identifier `u` (hyphens allowed), parsing the target
id `minibox-` + squareId + `-` + `u` yields the square id and `u`. -/
theorem parseMiniBoxTarget_round_trip (row col u : Str)
    (hr : HYPHEN ∉ row) (hc : HYPHEN ∉ col) :
    parseMiniBoxTarget
        ("minibox-".toList ++ ("square-".toList ++ row ++ [HYPHEN] ++ col) ++ [HYPHEN] ++ u)
      = ("square-".toList ++ row ++ [HYPHEN] ++ col, u) := by
  have hsq : HYPHEN ∉ "square".toList := by decide
  have hrem : substring
      ("minibox-".toList ++ ("square-".toList ++ row ++ [HYPHEN] ++ col) ++ [HYPHEN] ++ u)
      "minibox-".toList.length
        = "square".toList ++ HYPHEN :: (row ++ HYPHEN :: (col ++ HYPHEN :: u)) := by
    unfold substring
    rw [List.append_assoc, List.append_assoc, List.drop_left]
    simp [HYPHEN]
  have hsplit : split HYPHEN ("square".toList ++ HYPHEN :: (row ++ HYPHEN :: (col ++ HYPHEN :: u)))
      = "square".toList :: row :: col :: split HYPHEN u := by
    rw [split_append_sep _ _ _ hsq, split_append_sep _ _ _ hr, split_append_sep _ _ _ hc]
  have hjoin : join [HYPHEN] ["square".toList, row, col]
      = "square-".toList ++ row ++ [HYPHEN] ++ col := by
    simp [join, HYPHEN]
  unfold parseMiniBoxTarget
  simp only [hrem, hsplit, List.take_succ_cons, List.take_zero, hjoin]
  refine Prod.ext rfl ?_
  show substring _ _ = u
  unfold substring
  have hlen : ("square-".toList ++ row ++ [HYPHEN] ++ col).length + 1
      = ("square".toList ++ HYPHEN :: (row ++ HYPHEN :: (col ++ [HYPHEN]))).length := by
    simp; omega
  have happ : "square".toList ++ HYPHEN :: (row ++ HYPHEN :: (col ++ HYPHEN :: u))
      = ("square".toList ++ HYPHEN :: (row ++ HYPHEN :: (col ++ [HYPHEN]))) ++ u := by
    simp
  rw [hlen, happ, List.drop_left]

/-! ## Unrelated lines under a rename -/

theorem join_cons_of_ne_nil (sep l : Str) (ls : List Str) (h : ls ≠ []) :
    join sep (l :: ls) = l ++ sep ++ join sep ls := by
  cases ls with
  | nil => exact absurd rfl h
  | cons l2 rest => rfl

theorem split_join_append (sep : Char) (ls : List Str) (x : Str)
    (h : ∀ l ∈ ls, sep ∉ l) : split sep (join [sep] (ls ++ [x])) = ls ++ split sep x := by
  induction ls with
  | nil => simp [join]
  | cons l rest ih =>
    have h1 : sep ∉ l := h l (List.mem_cons_self _ _)
    have h2 : ∀ y ∈ rest, sep ∉ y := fun y hy => h y (List.mem_cons_of_mem _ hy)
    rw [List.cons_append, join_cons_of_ne_nil _ _ _ (by simp), List.append_assoc,
      List.singleton_append, split_append_sep sep l _ h1, ih h2]
    rfl

theorem unrelatedLines_eq (notes o l : Str) :
    unrelatedLines notes o l =
      ((split LF notes).filter (fun line => decide (trim line ≠ noteLine o l))).filter
        (fun line => decide (trim line ≠ [])) := by
  unfold unrelatedLines
  rw [List.filter_filter]

theorem unrelatedLines_sublist_split (notes o l : Str) :
    (unrelatedLines notes o l).Sublist (split LF notes) :=
  List.filter_sublist _

theorem lf_not_mem_unrelatedLines (notes o l : Str) :
    ∀ line ∈ unrelatedLines notes o l, LF ∉ line := by
  intro line hline
  exact sep_not_mem_of_mem_split LF notes line (List.mem_filter.1 hline).1

/-- The lines of the blob a rename produces start with the unrelated lines of
the prior blob, in their order. -/
theorem unrelatedLines_sublist_renameNotes (notes o l n : Str) :
    (unrelatedLines notes o l).Sublist (split LF (renameNotes notes o l n)) := by
  have hfinal : ∃ extra : List Str, extra.length ≤ 1 ∧
      renameNotes notes o l n = join [LF] (unrelatedLines notes o l ++ extra) := by
    unfold renameNotes
    simp only
    rw [rename_filter_eq _ _ (noteLine_ne_nil o l), unrelatedLines_eq]
    split_ifs
    · rw [List.filter_append]
      exact ⟨_, le_trans (List.length_filter_le _ _) (by simp), rfl⟩
    · exact ⟨[], by simp, by simp⟩
    · exact ⟨[], by simp, by simp⟩
  obtain ⟨extra, hlen, heq⟩ := hfinal
  rw [heq]
  match extra, hlen with
  | [], _ =>
    rw [List.append_nil]
    by_cases hnil : unrelatedLines notes o l = []
    · rw [hnil]; exact List.nil_sublist _
    · rw [split_join LF _ hnil (lf_not_mem_unrelatedLines notes o l)]
  | [x], _ =>
    rw [split_join_append LF _ x (lf_not_mem_unrelatedLines notes o l)]
    exact List.sublist_append_left _ _
  | _ :: _ :: _, h => simp at h

/-- C12: for every notes blob and every rename of a square with original label
O and current label L to a new label, every line of the prior blob that is
non-blank after trimming and whose trimmed content differs from `O --> (L)` is
a line of the resulting blob, character for character, and these lines keep
their relative order. -/
theorem handleLabelChange_keeps_unrelated_lines (s : State) (squareId newLabel : Str)
    (cell : Square) (hget : s.gridItems.get squareId = some cell) :
    (unrelatedLines s.notes (originalLabelOf cell) (currentLabelOf cell)).Sublist
      (split LF (handleLabelChange s squareId newLabel).notes) := by
  unfold handleLabelChange
  rw [hget]
  dsimp only
  split
  · exact unrelatedLines_sublist_split _ _ _
  · split_ifs
    · exact unrelatedLines_sublist_split _ _ _
    · exact unrelatedLines_sublist_renameNotes _ _ _ _

/-! ## Export pipeline -/

/-- C15: for every artifact handed to `uploadPdfBlob` and every outcome of the
upload, the resulting export state has the loading flag false, the generation
trigger false, the stored artifact cleared and the generated flag false; on
success the QR payload is the retrieval url and the error is cleared; on
failure the QR payload is empty and the error is `Failed to upload PDF: `
followed by the failure message, so it contains that message. -/
theorem uploadPdfBlob_outcome (st : ExportState) (blob : Blob) (outcome : UploadOutcome) :
    (uploadPdfBlob st (some blob) outcome).isLoadingPdf = false ∧
    (uploadPdfBlob st (some blob) outcome).triggerPdfGeneration = false ∧
    (uploadPdfBlob st (some blob) outcome).pdfBlob = none ∧
    (uploadPdfBlob st (some blob) outcome).pdfGenerated = false ∧
    (∀ url, outcome = UploadOutcome.success url →
      (uploadPdfBlob st (some blob) outcome).qrData = url ∧
      (uploadPdfBlob st (some blob) outcome).pdfError = none) ∧
    (∀ e, outcome = UploadOutcome.failure e →
      (uploadPdfBlob st (some blob) outcome).qrData = [] ∧
      (uploadPdfBlob st (some blob) outcome).pdfError
        = some ("Failed to upload PDF: ".toList ++ orElse e.message e.text) ∧
      ∀ m, e.message = some m →
        m <:+: "Failed to upload PDF: ".toList ++ orElse e.message e.text) := by
  refine ⟨?_, ?_, ?_, ?_, ?_, ?_⟩
  · cases outcome <;> rfl
  · cases outcome <;> rfl
  · cases outcome <;> rfl
  · cases outcome <;> rfl
  · intro url h
    subst h
    exact ⟨rfl, rfl⟩
  · intro e h
    subst h
    refine ⟨rfl, rfl, ?_⟩
    intro m hm
    rw [hm]
    cases m with
    | nil => exact List.nil_infix
    | cons c cs =>
      have : orElse (some (c :: cs)) e.text = c :: cs := by simp [orElse, truthy]
      rw [this]
      exact (List.suffix_append _ _).isInfix

/-! ## Further instances on sample data -/

theorem handleDragEnd_assign_witness :
    threeBoxesGrid.get sq00 = some threeBoxesCell ∧
      ∃ next : Grid,
        handleDragEnd threeBoxesGrid dropBoilWater = Except.ok next ∧
        next.get sq00 = some assignedCell ∧
        next.get sq01 = some createEmptySquare := by
  obtain ⟨next, hok, htarget, _, hother⟩ :=
    handleDragEnd_assign threeBoxesGrid "action-boil".toList sq00
      { type := none, item := none, action := some boilWater } boilWater
      (by decide) (by decide) rfl
  exact ⟨by decide, next, hok, htarget, (hother sq01 (by decide)).trans (by decide)⟩

theorem handleLabelChange_keeps_unrelated_lines_witness :
    unrelatedLines " x \n\nBoil Water --> (Simmer)\ny\r".toList "Boil Water".toList
        "Simmer".toList = [" x ".toList, "y\r".toList] ∧
      ([" x ".toList, "y\r".toList] : List Str).Sublist
        (split LF (handleLabelChange
          (withNotes renamedState " x \n\nBoil Water --> (Simmer)\ny\r".toList)
          sq00 "Poach".toList).notes) := by
  have h := handleLabelChange_keeps_unrelated_lines
    (withNotes renamedState " x \n\nBoil Water --> (Simmer)\ny\r".toList) sq00 "Poach".toList
    renamedCell (by decide)
  have hu : unrelatedLines " x \n\nBoil Water --> (Simmer)\ny\r".toList "Boil Water".toList
      "Simmer".toList = [" x ".toList, "y\r".toList] := by decide
  refine ⟨hu, ?_⟩
  rw [← hu]
  exact h

/-- C13, as stated, fails: for the target id `minibox-constructor` the parent id
`constructor` is not a square of the grid, yet `prev["constructor"]` is the
inherited member and the updater throws instead of returning the grid. -/
theorem handleDragEnd_throws_on_inherited_parent :
    ¬ ∀ (g : Grid) (source target parentSquareId miniBoxUuid : Str) (d : DragData)
        (a : Action),
        startsWith target "minibox-".toList = true →
        startsWith source "action-".toList = true →
        d.action = some a →
        parseMiniBoxTarget target = (parentSquareId, miniBoxUuid) →
        g.get parentSquareId = none →
        handleDragEnd g { activeId := source, activeData := some d, overId := some target }
          = Except.ok g := by
  intro h
  have h1 := h initialGridItems "action-boil".toList "minibox-constructor".toList
    "constructor".toList [] { type := none, item := none, action := some boilWater } boilWater
    (by decide) (by decide) rfl (by decide) (by decide)
  revert h1
  decide

theorem handleDragEnd_assignMiniBox_witness :
    (∃ next : Grid,
      handleDragEnd threeBoxesGrid dropOnSecondBox = Except.ok next ∧
      next.get sq00 = some (assignedWithBoxes
        [emptyBox "u1".toList "right".toList,
         { id := "u2".toList, action := some boilWater, position := "top".toList },
         emptyBox "u3".toList "bottom".toList]) ∧
      next.get sq01 = some createEmptySquare) ∧
    handleDragEnd threeBoxesGrid
        { activeId := "action-boil".toList
          activeData := some { type := none, item := none, action := some boilWater }
          overId := some "minibox-square-0-0-u9".toList }
      = Except.ok threeBoxesGrid ∧
    handleDragEnd threeBoxesGrid
        { activeId := "action-boil".toList
          activeData := some { type := none, item := none, action := some boilWater }
          overId := some "minibox-square-9-9-u2".toList }
      = Except.ok threeBoxesGrid := by
  have hset := (handleDragEnd_assignMiniBox threeBoxesGrid "action-boil".toList
    "minibox-square-0-0-u2".toList sq00 "u2".toList
    { type := none, item := none, action := some boilWater } boilWater
    (by decide) (by decide) rfl (by decide)).2.2 threeBoxesCell (by decide)
    ⟨secondBox, by decide, by decide⟩
  have hmiss := (handleDragEnd_assignMiniBox threeBoxesGrid "action-boil".toList
    "minibox-square-0-0-u9".toList sq00 "u9".toList
    { type := none, item := none, action := some boilWater } boilWater
    (by decide) (by decide) rfl (by decide)).2.1 threeBoxesCell (by decide) (by decide)
  have hnone := (handleDragEnd_assignMiniBox threeBoxesGrid "action-boil".toList
    "minibox-square-9-9-u2".toList "square-9-9".toList "u2".toList
    { type := none, item := none, action := some boilWater } boilWater
    (by decide) (by decide) rfl (by decide)).1 (by decide) (by decide)
  refine ⟨?_, hmiss, hnone⟩
  obtain ⟨next, boxes, hok, hget, hall, hother⟩ := hset
  refine ⟨next, hok, ?_, (hother sq01 (by decide)).trans (by decide)⟩
  rw [hget]
  simp only [threeBoxesCell, List.forall₂_cons_left_iff, List.forall₂_nil_left_iff] at hall
  obtain ⟨b1, u1, ⟨h1i, h1p, h1a⟩, ⟨b2, u2, ⟨h2i, h2p, h2a⟩,
    ⟨b3, u3, ⟨h3i, h3p, h3a⟩, hu3, hu2⟩, hu1⟩, hb⟩ := hall
  subst hu3 hu2 hu1 hb
  obtain ⟨i1, a1, p1⟩ := b1
  obtain ⟨i2, a2, p2⟩ := b2
  obtain ⟨i3, a3, p3⟩ := b3
  simp only at h1i h1p h1a h2i h2p h2a h3i h3p h3a
  subst h1i h1p h2i h2p h3i h3p
  rw [h1a, h2a, h3a]
  decide

theorem parseMiniBoxTarget_round_trip_witness :
    parseMiniBoxTarget "minibox-square-0-1-9b2e-4c3d-a1f0".toList
      = ("square-0-1".toList, "9b2e-4c3d-a1f0".toList) :=
  parseMiniBoxTarget_round_trip "0".toList "1".toList "9b2e-4c3d-a1f0".toList
    (by decide) (by decide)

theorem uploadPdfBlob_outcome_witness :
    (uploadPdfBlob uploadingState (some sampleBlob)
        (UploadOutcome.success "https://files/recipe.pdf".toList)).qrData
      = "https://files/recipe.pdf".toList ∧
    (uploadPdfBlob uploadingState (some sampleBlob) (UploadOutcome.failure quotaError)).pdfError
      = some "Failed to upload PDF: quota exceeded".toList ∧
    "quota exceeded".toList <:+: "Failed to upload PDF: quota exceeded".toList :=
  have hs := (uploadPdfBlob_outcome uploadingState sampleBlob
    (UploadOutcome.success "https://files/recipe.pdf".toList)).2.2.2.2.1 _ rfl
  have hf := (uploadPdfBlob_outcome uploadingState sampleBlob
    (UploadOutcome.failure quotaError)).2.2.2.2.2 _ rfl
  ⟨hs.1, hf.2.1, hf.2.2 _ rfl⟩

end RecipeBuilder
